import Mathlib

/-!
# timedFunctions: a shallow embedding and its properties

Embedding of `timedFunctions.h` (the `TIMED_*` macros) and `timedFunctions.c`
(the timer interrupt handler and `timedLoadTimer`).

A timed function is written in C as

    TIMED_FUNCTION(name) { TIMED_BEGIN(); ...statements... TIMED_END(); }

Its body is modelled as a straight-line list of statements (`Stmt`): each is one
of the four macros that carry a `case __LINE__:` label, or a block of user code.
Every macro is split at its `case __LINE__:` label, because `switch(_timed_pt)`
in `TIMED_BEGIN` jumps to that label: `TIMED_X` is the macro run from its top,
`TIMED_X_case` is the part after the label.

Macro parameters are replaced wherever their name occurs as a token in the macro body.
In `TIMED_WAIT(func, time, data)` the statement `waitCb.data = data;` therefore has its
member name replaced together with its right-hand side (see `Arg`).
-/

namespace TimedFunctions

/-! ## Constants of `timedFunctions.h` -/

/-- Timer state `TIMER_FREE`. -/
def TIMER_FREE : Nat := 0
/-- Timer state `TIMER_LOCK`. -/
def TIMER_LOCK : Nat := 1
/-- Timer state `TIMER_RUN`. -/
def TIMER_RUN : Nat := 2

/-- Caller tag `CALLER_TIMER`. -/
def CALLER_TIMER : Nat := 1
/-- Caller tag `CALLER_THREAD`. -/
def CALLER_THREAD : Nat := 0

/-- Return status `RETURN_WAIT`. -/
def RETURN_WAIT : Nat := 0
/-- Return status `RETURN_DONE`. -/
def RETURN_DONE : Nat := 1

/-! ## Data model -/

/-- The struct `timedCallback`: `callback` is a function address (0 is the null pointer),
`data` an untyped pointer. -/
structure timedCallback where
  timer : Nat
  callback : Nat
  data : Nat
deriving DecidableEq, Repr

/-- The members of the struct `timedCallback`. -/
inductive Member where
  | timer
  | callback
  | data
deriving DecidableEq, Repr

/-- The third argument of `TIMED_WAIT(func, time, data)` as it is written in the call.
The macro parameter is named `data` and the macro body reads `waitCb.data = data;`, so
the preprocessor puts the argument in both places and the statement that is compiled is
`waitCb.ARG = ARG;`. It compiles only when the argument is an identifier that is also
the name of a member of `timedCallback`: `name` is that identifier, `value` the value
the identifier has at the call. -/
structure Arg where
  name : Member
  value : Nat
deriving DecidableEq, Repr

/-- The assignment `waitCb.ARG = ARG;`: the member that is written is the one the
argument is spelled like. The member `timer` is a `uint32_t`. -/
def timedCallback.assign (cb : timedCallback) (arg : Arg) : timedCallback :=
  match arg.name with
  | .timer => { cb with timer := arg.value % 2 ^ 32 }
  | .callback => { cb with callback := arg.value }
  | .data => { cb with data := arg.value }

/-- Observable events, in program order: the calls made to the timer driver, the blocks
of user code that ran (with the `pdata` they ran under), and the calls made through
`waitCb.callback`. -/
inductive Event where
  | TimerIntClear
  | TimerLoadSet64 (value : Nat)
  | TimerEnable
  | userCode (tag pdata : Nat)
  | callback (fn pdata caller : Nat)
deriving DecidableEq, Repr

/-- The globals of `timedFunctions.c` (`waitMutex`, `waitCb`) and the event trace. -/
structure World where
  waitMutex : Nat
  waitCb : timedCallback
  trace : List Event
deriving DecidableEq, Repr

/-- The two `static` locals that `TIMED_BEGIN` declares in each timed function:
`_timed_pt` (`unsigned short`) and `_timed_mutex` (`char`). -/
structure Statics where
  _timed_pt : Nat
  _timed_mutex : Nat
deriving DecidableEq, Repr

/-- What one invocation of a timed function sees: its own statics and the globals. -/
structure Ctx where
  self : Statics
  w : World
deriving DecidableEq, Repr

/-- Names the sources use but do not declare: the macro `CLOCKS_IN_US`, and the
identifier `time` that the body of `timedLoadTimer` reads. -/
structure Platform where
  CLOCKS_IN_US : Nat
  time : Nat
deriving DecidableEq, Repr

/-! ## `timedFunctions.c` -/

/-- `timedLoadTimer(uint64_t value)`: the body loads `time * CLOCKS_IN_US` (a 64-bit
argument of `TimerLoadSet64`) and enables the timer; `value` is not read. -/
def timedLoadTimer (P : Platform) (_value : Nat) (w : World) : World :=
  { w with trace := w.trace ++
      [Event.TimerLoadSet64 ((P.time * P.CLOCKS_IN_US) % 2 ^ 64), Event.TimerEnable] }

/-! ## The macros of `timedFunctions.h` -/

/-- `_timed_pt = __LINE__;` where `_timed_pt` is an `unsigned short`. -/
def setPt (line : Nat) (c : Ctx) : Ctx :=
  { c with self := { c.self with _timed_pt := line % 65536 } }

/-- `TIMED_LOCK` after its `case __LINE__:` label. `some r` is `return r`, `none` is
falling through to the next statement. -/
def TIMED_LOCK_case (c : Ctx) : Ctx × Option Nat :=
  if c.w.waitMutex ≠ TIMER_FREE then (c, some RETURN_WAIT)
  else ({ c with w := { c.w with waitMutex := TIMER_LOCK } }, none)

/-- `TIMED_LOCK()` written at line `line`, run from its top. -/
def TIMED_LOCK (line : Nat) (c : Ctx) : Ctx × Option Nat :=
  TIMED_LOCK_case (setPt line c)

/-- `TIMED_WAIT` after its `case __LINE__:` label. -/
def TIMED_WAIT_case (c : Ctx) : Ctx × Option Nat :=
  if c.w.waitMutex = TIMER_RUN then (c, some RETURN_WAIT)
  else ({ c with self := { c.self with _timed_mutex := 0 } }, none)

/-- The statements of `TIMED_WAIT(func, time, data)` before its `case __LINE__:` label:
`waitCb.callback = &func;`, then `waitCb.data = data;` with the parameter `data`
replaced in both places, and so on. -/
def TIMED_WAIT_arm (P : Platform) (line func time : Nat) (data : Arg) (c : Ctx) : Ctx :=
  let c1 : Ctx := { c with w := { c.w with waitCb := { c.w.waitCb with callback := func } } }
  let c2 : Ctx := { c1 with w := { c1.w with waitCb := c1.w.waitCb.assign data } }
  let c3 : Ctx := { c2 with w := { c2.w with waitMutex := TIMER_RUN } }
  let c4 : Ctx := { c3 with self := { c3.self with _timed_mutex := 1 } }
  let c5 : Ctx := { c4 with w := timedLoadTimer P ((time * P.CLOCKS_IN_US) % 2 ^ 64) c4.w }
  setPt line c5

/-- `TIMED_WAIT(func, time, data)` written at line `line`, run from its top. -/
def TIMED_WAIT (P : Platform) (line func time : Nat) (data : Arg) (c : Ctx) :
    Ctx × Option Nat :=
  TIMED_WAIT_case (TIMED_WAIT_arm P line func time data c)

/-- `TIMED_YIELD` after its `case __LINE__:` label. -/
def TIMED_YIELD_case (caller : Nat) (c : Ctx) : Ctx × Option Nat :=
  if caller = CALLER_TIMER then (c, some RETURN_WAIT) else (c, none)

/-- `TIMED_YIELD()` written at line `line`, run from its top. -/
def TIMED_YIELD (line caller : Nat) (c : Ctx) : Ctx × Option Nat :=
  TIMED_YIELD_case caller (setPt line c)

/-- `TIMED_RELEASE` after its `case __LINE__:` label. -/
def TIMED_RELEASE_case (caller : Nat) (c : Ctx) : Ctx × Option Nat :=
  if caller = CALLER_TIMER then (c, some RETURN_WAIT) else (c, none)

/-- The statements of `TIMED_RELEASE()` before its `case __LINE__:` label. -/
def TIMED_RELEASE_free (line : Nat) (c : Ctx) : Ctx :=
  let c1 : Ctx := { c with w := { c.w with waitCb := { c.w.waitCb with callback := 0 } } }
  let c2 : Ctx := { c1 with w := { c1.w with waitMutex := TIMER_FREE } }
  setPt line c2

/-- `TIMED_RELEASE()` written at line `line`, run from its top. -/
def TIMED_RELEASE (line caller : Nat) (c : Ctx) : Ctx × Option Nat :=
  TIMED_RELEASE_case caller (TIMED_RELEASE_free line c)

/-- `TIMED_END()` after the closing brace of the switch. -/
def TIMED_END (c : Ctx) : Ctx × Nat :=
  ({ c with self := { c.self with _timed_pt := 0, _timed_mutex := 0 } }, RETURN_DONE)

/-! ## Bodies of timed functions -/

/-- One statement of a timed function's body, with the source line it is written on. -/
inductive Stmt where
  | LOCK (line : Nat)
  | WAIT (line func time : Nat) (data : Arg)
  | YIELD (line : Nat)
  | RELEASE (line : Nat)
  | code (tag : Nat)
deriving DecidableEq, Repr

/-- The `case` label a statement carries, if any. -/
def Stmt.label : Stmt → Option Nat
  | .LOCK line => some line
  | .WAIT line _ _ _ => some line
  | .YIELD line => some line
  | .RELEASE line => some line
  | .code _ => none

/-- A statement run from its top. -/
def Stmt.run (P : Platform) (pdata caller : Nat) : Stmt → Ctx → Ctx × Option Nat
  | .LOCK line, c => TIMED_LOCK line c
  | .WAIT line func time data, c => TIMED_WAIT P line func time data c
  | .YIELD line, c => TIMED_YIELD line caller c
  | .RELEASE line, c => TIMED_RELEASE line caller c
  | .code tag, c =>
      ({ c with w := { c.w with trace := c.w.trace ++ [Event.userCode tag pdata] } }, none)

/-- A statement entered at its `case` label. -/
def Stmt.runCase (caller : Nat) : Stmt → Ctx → Ctx × Option Nat
  | .LOCK _, c => TIMED_LOCK_case c
  | .WAIT _ _ _ _, c => TIMED_WAIT_case c
  | .YIELD _, c => TIMED_YIELD_case caller c
  | .RELEASE _, c => TIMED_RELEASE_case caller c
  | .code _, c => (c, none)

/-- Straight-line execution of the statements up to `TIMED_END()`. -/
def runFrom (P : Platform) (pdata caller : Nat) : List Stmt → Ctx → Ctx × Nat
  | [], c => TIMED_END c
  | st :: rest, c =>
      match st.run P pdata caller c with
      | (c1, some r) => (c1, r)
      | (c1, none) => runFrom P pdata caller rest c1

/-- The jump of `switch(_timed_pt)` to the label `case pt:` among the statements; when
no label matches, the switch body is skipped and control reaches `TIMED_END()`. -/
def switchTo (P : Platform) (pdata caller pt : Nat) : List Stmt → Ctx → Ctx × Nat
  | [], c => TIMED_END c
  | st :: rest, c =>
      if st.label = some pt then
        match st.runCase caller c with
        | (c1, some r) => (c1, r)
        | (c1, none) => runFrom P pdata caller rest c1
      else switchTo P pdata caller pt rest c

/-- A whole timed function `char name(void *pdata, char caller)`: the guard of
`TIMED_BEGIN()`, then `switch(_timed_pt)` with `case 0:` in front of the body. -/
def TIMED_FUNCTION (P : Platform) (body : List Stmt) (pdata caller : Nat) (c : Ctx) :
    Ctx × Nat :=
  if c.self._timed_mutex ≠ 0 ∧ caller = CALLER_THREAD then (c, RETURN_WAIT)
  else if c.self._timed_pt = 0 then runFrom P pdata caller body c
  else switchTo P pdata caller c.self._timed_pt body c

/-- The initial values of the statics: `_timed_pt = 0`, `_timed_mutex = 0`. -/
def Statics.init : Statics := ⟨0, 0⟩

/-! ## Several timed functions sharing the timer -/

/-- The globals together with the statics of every timed function, indexed by the
function's address. -/
structure System where
  w : World
  statics : Nat → Statics

/-- Zero-initialised globals and freshly initialised statics. -/
def System.init : System := ⟨⟨0, ⟨0, 0, 0⟩, []⟩, fun _ => Statics.init⟩

/-- A call `fn(pdata, caller)` of the timed function at address `fn`; `prog` maps an
address to the body of the function that lives there. -/
def invoke (P : Platform) (prog : Nat → List Stmt) (fn pdata caller : Nat) (sys : System) :
    System × Nat :=
  let r := TIMED_FUNCTION P (prog fn) pdata caller ⟨sys.statics fn, sys.w⟩
  (⟨r.1.w, Function.update sys.statics fn r.1.self⟩, r.2)

/-- The object `waitCb[i]`: `waitCb` itself for index 0, and for another index the
memory `adj i` that lies that many records behind it. -/
def waitCbAt (w : World) (adj : Nat → timedCallback) (i : Nat) : timedCallback :=
  if i = 0 then w.waitCb else adj i

/-- `timedFunctionsIntHandler`: acknowledge the interrupt, set `waitMutex = TIMER_LOCK`,
and when `waitCb.callback` is not null call it with `waitCb[i].data` and `CALLER_TIMER`.
The local `i` is never assigned, so its value is an input. -/
def timedFunctionsIntHandler (P : Platform) (prog : Nat → List Stmt)
    (adj : Nat → timedCallback) (i : Nat) (sys : System) : System :=
  let s1 : System := { sys with w := { sys.w with trace := sys.w.trace ++ [Event.TimerIntClear] } }
  let s2 : System := { s1 with w := { s1.w with waitMutex := TIMER_LOCK } }
  if s2.w.waitCb.callback ≠ 0 then
    let pdata := (waitCbAt s2.w adj i).data
    let s3 : System := { s2 with w := { s2.w with trace := s2.w.trace ++
      [Event.callback s2.w.waitCb.callback pdata CALLER_TIMER] } }
    (invoke P prog s2.w.waitCb.callback pdata CALLER_TIMER s3).1
  else s2

/-- What can happen next: the polling loop calls one timed function with
`CALLER_THREAD`, or the timer interrupt is taken (with `i` holding some value). -/
inductive Tick where
  | poll (fn pdata : Nat)
  | irq (i : Nat)
deriving DecidableEq, Repr

/-- One tick of the system. -/
def step (P : Platform) (prog : Nat → List Stmt) (adj : Nat → timedCallback)
    (sys : System) : Tick → System
  | .poll fn pdata => (invoke P prog fn pdata CALLER_THREAD sys).1
  | .irq i => timedFunctionsIntHandler P prog adj i sys

/-- A sequence of ticks. -/
def runTicks (P : Platform) (prog : Nat → List Stmt) (adj : Nat → timedCallback)
    (sys : System) (ticks : List Tick) : System :=
  ticks.foldl (step P prog adj) sys

/-! ## Who holds the timer -/

/-- Whether the function holds the timer after a statement, given whether it held it
before: `TIMED_LOCK` and `TIMED_WAIT` make `waitMutex` non-free, `TIMED_RELEASE` frees it. -/
def heldAfter (h : Bool) : Stmt → Bool
  | .LOCK _ => true
  | .WAIT _ _ _ _ => true
  | .RELEASE _ => false
  | .YIELD _ => h
  | .code _ => h

/-- Whether the function holds the timer while it is suspended at the `case` label of a
statement: at a `TIMED_LOCK` label the lock has not been taken yet, at a `TIMED_WAIT`
label the timer was armed, at a `TIMED_RELEASE` label it was already freed. -/
def heldAtCase (h : Bool) : Stmt → Bool
  | .LOCK _ => h
  | .WAIT _ _ _ _ => true
  | .RELEASE _ => false
  | .YIELD _ => h
  | .code _ => h

/-- Whether a function suspended at resume point `pt` holds the timer; `h` tells whether
it holds it in front of the statements. -/
def heldAt (pt : Nat) : Bool → List Stmt → Bool
  | _, [] => false
  | h, st :: rest =>
      if st.label = some pt then heldAtCase h st else heldAt pt (heldAfter h st) rest

/-- The function at address `fn` holds the timer: it has made `waitMutex` `TIMER_LOCK` or
`TIMER_RUN` and has not reached its `TIMED_RELEASE` yet. -/
def holds (prog : Nat → List Stmt) (sys : System) (fn : Nat) : Bool :=
  heldAt (sys.statics fn)._timed_pt false (prog fn)

/-- The labels of a body, in order. -/
def labels (body : List Stmt) : List Nat :=
  body.filterMap Stmt.label

/-- Every label is a line number that fits `unsigned short`, and no two statements share
a line (or the C `switch` would have a duplicate `case`). -/
def labelsOk (body : List Stmt) : Bool :=
  (labels body).Nodup && (labels body).all (fun l => 0 < l && l < 65536)

/-- The locking discipline: `TIMED_WAIT` and `TIMED_RELEASE` stand only where the
function holds the timer through an earlier `TIMED_LOCK`, and the timer is released
before `TIMED_END`. -/
def disciplined : Bool → List Stmt → Bool
  | h, [] => !h
  | _, .LOCK _ :: rest => disciplined true rest
  | h, .WAIT _ _ _ _ :: rest => h && disciplined true rest
  | h, .RELEASE _ :: rest => h && disciplined false rest
  | h, .YIELD _ :: rest => disciplined h rest
  | h, .code _ :: rest => disciplined h rest

/-- What one call of a disciplined timed function guarantees about the timer: `h` tells
whether the function holds the timer in front of the statements `r`, `held0` whether it
held it when the call started in context `c`, and `res` is the result of the call.
The call ends at `TIMED_END` or at a label of `r`; if the function holds the timer
afterwards, `waitMutex` is not free; and a function that did not hold the timer, called
while `waitMutex` was not free, left `waitMutex` and `waitCb` alone and does not hold it. -/
def SlotPost (h : Bool) (r : List Stmt) (held0 : Bool) (c : Ctx) (res : Ctx × Nat) : Prop :=
  (res.1.self._timed_pt = 0 ∨ res.1.self._timed_pt ∈ labels r) ∧
  (heldAt res.1.self._timed_pt h r = true → res.1.w.waitMutex ≠ TIMER_FREE) ∧
  (held0 = false → c.w.waitMutex ≠ TIMER_FREE →
    res.1.w.waitMutex = c.w.waitMutex ∧ res.1.w.waitCb = c.w.waitCb ∧
      heldAt res.1.self._timed_pt h r = false)

/-- The invariant of the shared timer: at most one function holds it, and while one
holds it `waitMutex` is not `TIMER_FREE`. -/
def SlotInv (prog : Nat → List Stmt) (sys : System) : Prop :=
  (∀ f g, holds prog sys f = true → holds prog sys g = true → f = g) ∧
  (∀ f, holds prog sys f = true → sys.w.waitMutex ≠ TIMER_FREE)

/-- A body that the C compiler accepts with labels that fit `_timed_pt`, and that obeys
the locking discipline from its top. -/
def wellFormed (body : List Stmt) : Bool :=
  labelsOk body && disciplined false body

/-- Two timed functions, at addresses 1 and 2 (and, for definiteness, at every other
address the second one), that lock the timer, wait and release. -/
def lockingTasks : Nat → List Stmt := fun fn =>
  if fn = 1 then [Stmt.LOCK 84, Stmt.WAIT 98 1 1000 ⟨Member.data, 41⟩, Stmt.RELEASE 120]
  else [Stmt.LOCK 84, Stmt.WAIT 98 2 500 ⟨Member.data, 42⟩, Stmt.RELEASE 120]

/-- Two timed functions, at addresses 1 and 2, that wait without locking the timer. -/
def unlockedTasks : Nat → List Stmt := fun fn =>
  if fn = 1 then [Stmt.WAIT 98 1 1000 ⟨Member.data, 41⟩, Stmt.RELEASE 120]
  else [Stmt.WAIT 98 2 500 ⟨Member.data, 42⟩, Stmt.RELEASE 120]

/-! ## Which calls execute a release -/

/-- The statement is a `TIMED_RELEASE`. -/
def Stmt.isRelease : Stmt → Bool
  | .RELEASE _ => true
  | .LOCK _ => false
  | .WAIT _ _ _ _ => false
  | .YIELD _ => false
  | .code _ => false

/-- Whether the straight-line execution `runFrom` of the statements executes a
`TIMED_RELEASE` from its top; the control flow is followed with `Stmt.run` itself. -/
def runFromReleases (P : Platform) (pdata caller : Nat) : List Stmt → Ctx → Bool
  | [], _ => false
  | st :: rest, c =>
      st.isRelease ||
        match st.run P pdata caller c with
        | (_, some _) => false
        | (c1, none) => runFromReleases P pdata caller rest c1

/-- Whether the execution `switchTo` that enters at the label `pt` executes a
`TIMED_RELEASE` from its top. Entering at the label of a `TIMED_RELEASE` does not
execute the assignments of that release, which stand in front of the label. -/
def switchToReleases (P : Platform) (pdata caller pt : Nat) : List Stmt → Ctx → Bool
  | [], _ => false
  | st :: rest, c =>
      if st.label = some pt then
        match st.runCase caller c with
        | (_, some _) => false
        | (c1, none) => runFromReleases P pdata caller rest c1
      else switchToReleases P pdata caller pt rest c

/-- Whether a call of a timed function executes a `TIMED_RELEASE` from its top. -/
def callReleases (P : Platform) (body : List Stmt) (pdata caller : Nat) (c : Ctx) : Bool :=
  if c.self._timed_mutex ≠ 0 ∧ caller = CALLER_THREAD then false
  else if c.self._timed_pt = 0 then runFromReleases P pdata caller body c
  else switchToReleases P pdata caller c.self._timed_pt body c

/-- Whether a tick executes a `TIMED_RELEASE`: in the polled function, or in the
function that the interrupt handler calls. -/
def tickReleases (P : Platform) (prog : Nat → List Stmt) (adj : Nat → timedCallback)
    (sys : System) : Tick → Bool
  | .poll fn pdata => callReleases P (prog fn) pdata CALLER_THREAD ⟨sys.statics fn, sys.w⟩
  | .irq i =>
      if sys.w.waitCb.callback ≠ 0 then
        callReleases P (prog sys.w.waitCb.callback) (waitCbAt sys.w adj i).data CALLER_TIMER
          ⟨sys.statics sys.w.waitCb.callback,
            ⟨TIMER_LOCK, sys.w.waitCb, sys.w.trace ++ [Event.TimerIntClear] ++
              [Event.callback sys.w.waitCb.callback (waitCbAt sys.w adj i).data
                CALLER_TIMER]⟩⟩
      else false

/-- Whether some tick of the sequence executes a `TIMED_RELEASE`. -/
def ticksRelease (P : Platform) (prog : Nat → List Stmt) (adj : Nat → timedCallback) :
    System → List Tick → Bool
  | _, [] => false
  | sys, t :: ts =>
      tickReleases P prog adj sys t || ticksRelease P prog adj (step P prog adj sys t) ts

/-- Two timed functions that lock the timer and reach `TIMED_END` without releasing it. -/
def lockOnlyTasks : Nat → List Stmt := fun fn =>
  if fn = 1 then [Stmt.LOCK 84, Stmt.code 1] else [Stmt.LOCK 184, Stmt.code 2]

/-- Every function is suspended at the top of its body or at one of its labels. -/
def PtInv (prog : Nat → List Stmt) (sys : System) : Prop :=
  ∀ f, (sys.statics f)._timed_pt = 0 ∨ (sys.statics f)._timed_pt ∈ labels (prog f)

/-- A timed function at address 1 that locks, waits and releases, and whose wait is
written `TIMED_WAIT(self, 1000, callback)` with a variable `callback` that holds a null
pointer. -/
def callbackArgTask : Nat → List Stmt := fun _ =>
  [Stmt.LOCK 84, Stmt.WAIT 98 1 1000 ⟨Member.callback, 0⟩, Stmt.RELEASE 120]

/-- A timed function at address 1 that locks, waits and releases, and whose wait is
written `TIMED_WAIT(self, 1000, timer)` with a variable `timer` that holds 41. -/
def timerArgTask : Nat → List Stmt := fun _ =>
  [Stmt.LOCK 84, Stmt.WAIT 98 1 1000 ⟨Member.timer, 41⟩, Stmt.RELEASE 120]

/-! ## Lemmas on the control flow -/

/-- The `switch` skips statements whose label is not the resume point. -/
theorem switchTo_skip (P : Platform) (pdata caller pt : Nat) (pre rest : List Stmt) (c : Ctx)
    (hpre : ∀ s ∈ pre, s.label ≠ some pt) :
    switchTo P pdata caller pt (pre ++ rest) c = switchTo P pdata caller pt rest c := by
  induction pre with
  | nil => rfl
  | cons s pre ih =>
    have hs : s.label ≠ some pt := hpre s (List.mem_cons_self s pre)
    have hrest : ∀ t ∈ pre, t.label ≠ some pt := fun t ht => hpre t (List.mem_cons_of_mem s ht)
    simp [switchTo, hs, ih hrest]

/-- A line number that fits `unsigned short` is stored unchanged. -/
theorem setPt_of_lt (line : Nat) (c : Ctx) (hline : line < 65536) :
    setPt line c = ⟨⟨line, c.self._timed_mutex⟩, c.w⟩ := by
  simp [setPt, Nat.mod_eq_of_lt hline]

/-- When the `TIMED_BEGIN` guard does not fire and `_timed_pt` is the label of a statement
of the body, the function continues at the `case` label of that statement. -/
theorem TIMED_FUNCTION_resume (P : Platform) (pre rest : List Stmt) (st : Stmt)
    (pdata caller : Nat) (c : Ctx)
    (hpre : ∀ s ∈ pre, s.label ≠ some c.self._timed_pt)
    (hst : st.label = some c.self._timed_pt) (hpt : c.self._timed_pt ≠ 0)
    (hguard : c.self._timed_mutex = 0 ∨ caller ≠ CALLER_THREAD) :
    TIMED_FUNCTION P (pre ++ st :: rest) pdata caller c =
      match st.runCase caller c with
      | (c1, some r) => (c1, r)
      | (c1, none) => runFrom P pdata caller rest c1 := by
  have hg : ¬ (c.self._timed_mutex ≠ 0 ∧ caller = CALLER_THREAD) := by
    rintro ⟨h1, h2⟩
    rcases hguard with h | h
    · exact h1 h
    · exact h h2
  unfold TIMED_FUNCTION
  rw [if_neg hg, if_neg hpt, switchTo_skip P pdata caller _ pre (st :: rest) c hpre]
  simp [switchTo, hst]

/-- A statement that returns, returns `RETURN_WAIT`. -/
theorem Stmt.run_returns_wait (P : Platform) (pdata caller : Nat) (st : Stmt) (c c1 : Ctx)
    (r : Nat) (h : st.run P pdata caller c = (c1, some r)) : r = RETURN_WAIT := by
  cases st with
  | LOCK line =>
    simp only [Stmt.run, TIMED_LOCK, TIMED_LOCK_case] at h
    split at h <;> simp_all
  | WAIT line func time data =>
    simp only [Stmt.run, TIMED_WAIT, TIMED_WAIT_case] at h
    split at h <;> simp_all
  | YIELD line =>
    simp only [Stmt.run, TIMED_YIELD, TIMED_YIELD_case] at h
    split at h <;> simp_all
  | RELEASE line =>
    simp only [Stmt.run, TIMED_RELEASE, TIMED_RELEASE_case] at h
    split at h <;> simp_all
  | code tag => simp [Stmt.run] at h

/-- A statement entered at its label that returns, returns `RETURN_WAIT`. -/
theorem Stmt.runCase_returns_wait (caller : Nat) (st : Stmt) (c c1 : Ctx)
    (r : Nat) (h : st.runCase caller c = (c1, some r)) : r = RETURN_WAIT := by
  cases st with
  | LOCK line =>
    simp only [Stmt.runCase, TIMED_LOCK_case] at h
    split at h <;> simp_all
  | WAIT line func time data =>
    simp only [Stmt.runCase, TIMED_WAIT_case] at h
    split at h <;> simp_all
  | YIELD line =>
    simp only [Stmt.runCase, TIMED_YIELD_case] at h
    split at h <;> simp_all
  | RELEASE line =>
    simp only [Stmt.runCase, TIMED_RELEASE_case] at h
    split at h <;> simp_all
  | code tag => simp [Stmt.runCase] at h

/-- Straight-line execution returns `RETURN_DONE` only through `TIMED_END`, which resets
the statics. -/
theorem runFrom_done (P : Platform) (pdata caller : Nat) (body : List Stmt) (c : Ctx)
    (h : (runFrom P pdata caller body c).2 = RETURN_DONE) :
    (runFrom P pdata caller body c).1.self = Statics.init := by
  induction body generalizing c with
  | nil => simp [runFrom, TIMED_END, Statics.init]
  | cons st rest ih =>
    unfold runFrom at h ⊢
    rcases hrun : st.run P pdata caller c with ⟨c1, _ | r⟩
    · simp only [hrun] at h ⊢
      exact ih c1 h
    · simp only [hrun] at h ⊢
      have := Stmt.run_returns_wait P pdata caller st c c1 r hrun
      simp [this, RETURN_WAIT, RETURN_DONE] at h

/-- The `switch` returns `RETURN_DONE` only through `TIMED_END`. -/
theorem switchTo_done (P : Platform) (pdata caller pt : Nat) (body : List Stmt) (c : Ctx)
    (h : (switchTo P pdata caller pt body c).2 = RETURN_DONE) :
    (switchTo P pdata caller pt body c).1.self = Statics.init := by
  induction body generalizing c with
  | nil => simp [switchTo, TIMED_END, Statics.init]
  | cons st rest ih =>
    unfold switchTo at h ⊢
    by_cases hl : st.label = some pt
    · simp only [if_pos hl] at h ⊢
      rcases hrun : st.runCase caller c with ⟨c1, _ | r⟩
      · simp only [hrun] at h ⊢
        exact runFrom_done P pdata caller rest c1 h
      · simp only [hrun] at h ⊢
        have := Stmt.runCase_returns_wait caller st c c1 r hrun
        simp [this, RETURN_WAIT, RETURN_DONE] at h
    · simp only [if_neg hl] at h ⊢
      exact ih c h

/-! ## The primitives one by one -/

/-- The result of `TIMED_WAIT` run from its top. -/
theorem TIMED_WAIT_eq (P : Platform) (line func time : Nat) (data : Arg) (c : Ctx)
    (hline : line < 65536) :
    TIMED_WAIT P line func time data c =
      (⟨⟨line, 1⟩, ⟨TIMER_RUN,
          timedCallback.assign ⟨c.w.waitCb.timer, func, c.w.waitCb.data⟩ data,
          c.w.trace ++ [Event.TimerLoadSet64 ((P.time * P.CLOCKS_IN_US) % 2 ^ 64),
            Event.TimerEnable]⟩⟩, some RETURN_WAIT) := by
  simp [TIMED_WAIT, TIMED_WAIT_arm, TIMED_WAIT_case, timedLoadTimer, setPt,
    Nat.mod_eq_of_lt hline]

/-- Re-entry with `CALLER_TIMER` at the label of a `TIMED_WAIT`. -/
theorem TIMED_FUNCTION_resume_WAIT (P : Platform) (pre rest : List Stmt)
    (line func time : Nat) (data : Arg) (pdata : Nat) (c : Ctx)
    (hpre : ∀ s ∈ pre, s.label ≠ some line)
    (hpt : c.self._timed_pt = line) (hline : line ≠ 0) :
    TIMED_FUNCTION P (pre ++ Stmt.WAIT line func time data :: rest) pdata CALLER_TIMER c =
      if c.w.waitMutex = TIMER_RUN then (c, RETURN_WAIT)
      else runFrom P pdata CALLER_TIMER rest ⟨⟨line, 0⟩, c.w⟩ := by
  rw [TIMED_FUNCTION_resume P pre rest (Stmt.WAIT line func time data) pdata
    CALLER_TIMER c (by rw [hpt]; exact hpre) (by simp [Stmt.label, hpt]) (by rw [hpt]; exact hline)
    (Or.inr (by decide))]
  by_cases h : c.w.waitMutex = TIMER_RUN
  · simp [Stmt.runCase, TIMED_WAIT_case, h]
  · simp [Stmt.runCase, TIMED_WAIT_case, h, ← hpt]

/-- C3: `TIMED_WAIT(func, time, data)` at line `line`, from any prior `waitMutex`,
leaves `waitMutex = TIMER_RUN`, `_timed_mutex = 1`, `_timed_pt = line` (as an
`unsigned short`), has loaded and enabled the timer exactly once and returns
`RETURN_WAIT`; but the statement `waitCb.data = data;` writes the member that the third
argument is spelled like. A call whose third argument is a variable `timer` with value
42 leaves the pending pair `(7, 0)` and `waitCb.timer = 42`; one whose third argument
is a variable `callback` overwrites the handler 7 by 42; only an argument spelled `data`
leaves the pending pair `(7, 42)`. -/
theorem TIMED_WAIT_stores_under_argument_name :
    (∀ (P : Platform) (line func time : Nat) (data : Arg) (c : Ctx),
        TIMED_WAIT P line func time data c =
          (⟨⟨line % 65536, 1⟩, ⟨TIMER_RUN,
              timedCallback.assign ⟨c.w.waitCb.timer, func, c.w.waitCb.data⟩ data,
              c.w.trace ++ [Event.TimerLoadSet64 ((P.time * P.CLOCKS_IN_US) % 2 ^ 64),
                Event.TimerEnable]⟩⟩, some RETURN_WAIT) ∧
        ∀ (pdata caller : Nat) (rest : List Stmt),
          runFrom P pdata caller (Stmt.WAIT line func time data :: rest) c =
            (⟨⟨line % 65536, 1⟩, ⟨TIMER_RUN,
              timedCallback.assign ⟨c.w.waitCb.timer, func, c.w.waitCb.data⟩ data,
              c.w.trace ++ [Event.TimerLoadSet64 ((P.time * P.CLOCKS_IN_US) % 2 ^ 64),
                Event.TimerEnable]⟩⟩, RETURN_WAIT)) ∧
      TIMED_WAIT ⟨80, 1000⟩ 98 7 1000 ⟨Member.timer, 42⟩
          ⟨⟨84, 0⟩, ⟨TIMER_LOCK, ⟨0, 0, 0⟩, []⟩⟩ =
        (⟨⟨98, 1⟩, ⟨TIMER_RUN, ⟨42, 7, 0⟩,
            [Event.TimerLoadSet64 80000, Event.TimerEnable]⟩⟩, some RETURN_WAIT) ∧
      TIMED_WAIT ⟨80, 1000⟩ 98 7 1000 ⟨Member.callback, 42⟩
          ⟨⟨84, 0⟩, ⟨TIMER_LOCK, ⟨0, 0, 0⟩, []⟩⟩ =
        (⟨⟨98, 1⟩, ⟨TIMER_RUN, ⟨0, 42, 0⟩,
            [Event.TimerLoadSet64 80000, Event.TimerEnable]⟩⟩, some RETURN_WAIT) ∧
      TIMED_WAIT ⟨80, 1000⟩ 98 7 1000 ⟨Member.data, 42⟩
          ⟨⟨84, 0⟩, ⟨TIMER_LOCK, ⟨0, 0, 0⟩, []⟩⟩ =
        (⟨⟨98, 1⟩, ⟨TIMER_RUN, ⟨0, 7, 42⟩,
            [Event.TimerLoadSet64 80000, Event.TimerEnable]⟩⟩, some RETURN_WAIT) := by
  refine ⟨?_, by decide, by decide, by decide⟩
  intro P line func time data c
  have h : TIMED_WAIT P line func time data c =
      (⟨⟨line % 65536, 1⟩, ⟨TIMER_RUN,
          timedCallback.assign ⟨c.w.waitCb.timer, func, c.w.waitCb.data⟩ data,
          c.w.trace ++ [Event.TimerLoadSet64 ((P.time * P.CLOCKS_IN_US) % 2 ^ 64),
            Event.TimerEnable]⟩⟩, some RETURN_WAIT) := by
    simp [TIMED_WAIT, TIMED_WAIT_arm, TIMED_WAIT_case, timedLoadTimer, setPt]
  refine ⟨h, ?_⟩
  intro pdata caller rest
  simp [runFrom, Stmt.run, h]

/-- C4: `TIMED_LOCK()` at line `line` always records `_timed_pt = line`; when `waitMutex`
is not `TIMER_FREE` it returns `RETURN_WAIT` and leaves the globals as they were; when it
is `TIMER_FREE` it sets `waitMutex = TIMER_LOCK`, leaves `waitCb` as it was, and
execution goes on with the statements that follow. -/
theorem TIMED_LOCK_fails_unless_free (P : Platform) (line pdata caller : Nat)
    (rest : List Stmt) (c : Ctx) (hline : line < 65536) :
    (TIMED_LOCK line c).1.self = ⟨line, c.self._timed_mutex⟩ ∧
      (c.w.waitMutex ≠ TIMER_FREE →
        TIMED_LOCK line c = (⟨⟨line, c.self._timed_mutex⟩, c.w⟩, some RETURN_WAIT) ∧
        runFrom P pdata caller (Stmt.LOCK line :: rest) c =
          (⟨⟨line, c.self._timed_mutex⟩, c.w⟩, RETURN_WAIT)) ∧
      (c.w.waitMutex = TIMER_FREE →
        TIMED_LOCK line c =
          (⟨⟨line, c.self._timed_mutex⟩, ⟨TIMER_LOCK, c.w.waitCb, c.w.trace⟩⟩, none) ∧
        runFrom P pdata caller (Stmt.LOCK line :: rest) c =
          runFrom P pdata caller rest
            ⟨⟨line, c.self._timed_mutex⟩, ⟨TIMER_LOCK, c.w.waitCb, c.w.trace⟩⟩) := by
  refine ⟨?_, ?_, ?_⟩
  · by_cases h : c.w.waitMutex = TIMER_FREE <;>
      simp [TIMED_LOCK, TIMED_LOCK_case, setPt, Nat.mod_eq_of_lt hline, h]
  · intro h
    have h1 : TIMED_LOCK line c = (⟨⟨line, c.self._timed_mutex⟩, c.w⟩, some RETURN_WAIT) := by
      simp [TIMED_LOCK, TIMED_LOCK_case, setPt, Nat.mod_eq_of_lt hline, h]
    exact ⟨h1, by simp [runFrom, Stmt.run, h1]⟩
  · intro h
    have h1 : TIMED_LOCK line c =
        (⟨⟨line, c.self._timed_mutex⟩, ⟨TIMER_LOCK, c.w.waitCb, c.w.trace⟩⟩, none) := by
      simp [TIMED_LOCK, TIMED_LOCK_case, setPt, Nat.mod_eq_of_lt hline, h]
    exact ⟨h1, by simp [runFrom, Stmt.run, h1]⟩

/-- C4, at a concrete input: a lock attempt at line 84 while another wait is running. -/
theorem TIMED_LOCK_fails_unless_free_witness :
    TIMED_LOCK 84 ⟨⟨0, 0⟩, ⟨TIMER_RUN, ⟨0, 7, 42⟩, []⟩⟩ =
      (⟨⟨84, 0⟩, ⟨TIMER_RUN, ⟨0, 7, 42⟩, []⟩⟩, some RETURN_WAIT) :=
  ((TIMED_LOCK_fails_unless_free ⟨80, 1000⟩ 84 0 CALLER_THREAD []
    ⟨⟨0, 0⟩, ⟨TIMER_RUN, ⟨0, 7, 42⟩, []⟩⟩ (by decide)).2.1 (by decide)).1

/-- C9: `TIMED_RELEASE()` at line `line`, from any state of the globals and in any timed
function, leaves `waitMutex = TIMER_FREE`, `waitCb.callback` null and `_timed_pt = line`;
with `CALLER_TIMER` it returns `RETURN_WAIT`, with `CALLER_THREAD` execution goes on with
the statements that follow. -/
theorem TIMED_RELEASE_frees_timer (P : Platform) (line pdata : Nat) (rest : List Stmt)
    (c : Ctx) (hline : line < 65536) :
    (∀ caller, (TIMED_RELEASE line caller c).1 =
        ⟨⟨line, c.self._timed_mutex⟩,
          ⟨TIMER_FREE, ⟨c.w.waitCb.timer, 0, c.w.waitCb.data⟩, c.w.trace⟩⟩) ∧
      (TIMED_RELEASE line CALLER_TIMER c).2 = some RETURN_WAIT ∧
      runFrom P pdata CALLER_TIMER (Stmt.RELEASE line :: rest) c =
        (⟨⟨line, c.self._timed_mutex⟩,
          ⟨TIMER_FREE, ⟨c.w.waitCb.timer, 0, c.w.waitCb.data⟩, c.w.trace⟩⟩, RETURN_WAIT) ∧
      (TIMED_RELEASE line CALLER_THREAD c).2 = none ∧
      runFrom P pdata CALLER_THREAD (Stmt.RELEASE line :: rest) c =
        runFrom P pdata CALLER_THREAD rest
          ⟨⟨line, c.self._timed_mutex⟩,
            ⟨TIMER_FREE, ⟨c.w.waitCb.timer, 0, c.w.waitCb.data⟩, c.w.trace⟩⟩ := by
  have h : ∀ caller, (TIMED_RELEASE line caller c).1 =
        ⟨⟨line, c.self._timed_mutex⟩,
          ⟨TIMER_FREE, ⟨c.w.waitCb.timer, 0, c.w.waitCb.data⟩, c.w.trace⟩⟩ := by
    intro caller
    by_cases hc : caller = CALLER_TIMER <;>
      simp [TIMED_RELEASE, TIMED_RELEASE_case, TIMED_RELEASE_free, setPt,
        Nat.mod_eq_of_lt hline, hc]
  refine ⟨h, ?_, ?_, ?_, ?_⟩
  · simp [TIMED_RELEASE, TIMED_RELEASE_case]
  · simp [runFrom, Stmt.run, TIMED_RELEASE, TIMED_RELEASE_case, TIMED_RELEASE_free, setPt,
      Nat.mod_eq_of_lt hline]
  · simp [TIMED_RELEASE, TIMED_RELEASE_case, CALLER_THREAD, CALLER_TIMER]
  · simp [runFrom, Stmt.run, TIMED_RELEASE, TIMED_RELEASE_case, TIMED_RELEASE_free, setPt,
      Nat.mod_eq_of_lt hline, CALLER_THREAD, CALLER_TIMER]

/-- C9, at a concrete input: a release at line 120 in the timer callback. -/
theorem TIMED_RELEASE_frees_timer_witness :
    TIMED_RELEASE 120 CALLER_TIMER ⟨⟨98, 0⟩, ⟨TIMER_LOCK, ⟨0, 7, 42⟩, []⟩⟩ =
      (⟨⟨120, 0⟩, ⟨TIMER_FREE, ⟨0, 0, 42⟩, []⟩⟩, some RETURN_WAIT) :=
  Prod.ext
    ((TIMED_RELEASE_frees_timer ⟨80, 1000⟩ 120 0 []
      ⟨⟨98, 0⟩, ⟨TIMER_LOCK, ⟨0, 7, 42⟩, []⟩⟩ (by decide)).1 CALLER_TIMER)
    (TIMED_RELEASE_frees_timer ⟨80, 1000⟩ 120 0 []
      ⟨⟨98, 0⟩, ⟨TIMER_LOCK, ⟨0, 7, 42⟩, []⟩⟩ (by decide)).2.1

/-- C10: a timed function re-entered with `CALLER_TIMER` at the label of its
`TIMED_WAIT` (`_timed_pt = line`) returns `RETURN_WAIT` again, with its statics and the
globals untouched, while `waitMutex` is still `TIMER_RUN`; otherwise it clears
`_timed_mutex` and goes on with the statements after the wait. -/
theorem TIMED_WAIT_recheck_on_resume (P : Platform) (pre rest : List Stmt)
    (line func time : Nat) (data : Arg) (pdata : Nat) (c : Ctx)
    (hpre : ∀ s ∈ pre, s.label ≠ some line)
    (hpt : c.self._timed_pt = line) (hline : line ≠ 0) :
    (c.w.waitMutex = TIMER_RUN →
        TIMED_FUNCTION P (pre ++ Stmt.WAIT line func time data :: rest) pdata CALLER_TIMER c =
          (c, RETURN_WAIT)) ∧
      (c.w.waitMutex ≠ TIMER_RUN →
        TIMED_FUNCTION P (pre ++ Stmt.WAIT line func time data :: rest) pdata CALLER_TIMER c =
          runFrom P pdata CALLER_TIMER rest ⟨⟨line, 0⟩, c.w⟩) := by
  have hres := TIMED_FUNCTION_resume_WAIT P pre rest line func time data pdata c hpre hpt hline
  constructor
  · intro h
    rw [hres, if_pos h]
  · intro h
    rw [hres, if_neg h]

/-- C10, at a concrete input: the callback fires after the handler has set
`TIMER_LOCK`; the function falls through the wait and runs the code after it. -/
theorem TIMED_WAIT_recheck_on_resume_witness :
    TIMED_FUNCTION ⟨80, 1000⟩
        [Stmt.LOCK 84, Stmt.WAIT 98 7 1000 ⟨Member.data, 42⟩, Stmt.code 1] 42
        CALLER_TIMER ⟨⟨98, 1⟩, ⟨TIMER_LOCK, ⟨0, 7, 42⟩, []⟩⟩ =
      runFrom ⟨80, 1000⟩ 42 CALLER_TIMER [Stmt.code 1]
        ⟨⟨98, 0⟩, ⟨TIMER_LOCK, ⟨0, 7, 42⟩, []⟩⟩ :=
  (TIMED_WAIT_recheck_on_resume ⟨80, 1000⟩ [Stmt.LOCK 84] [Stmt.code 1] 98 7 1000
    ⟨Member.data, 42⟩ 42
    ⟨⟨98, 1⟩, ⟨TIMER_LOCK, ⟨0, 7, 42⟩, []⟩⟩ (by decide) rfl (by decide)).2 (by decide)

/-- C8: with `_timed_mutex` set, a call with `CALLER_THREAD` returns `RETURN_WAIT` at
once and changes nothing (statics, globals and trace are as before); in every other case
(`_timed_mutex` clear, or a caller other than `CALLER_THREAD`) execution starts at the top
of the body when `_timed_pt = 0` and otherwise at the `case` label that equals
`_timed_pt`. -/
theorem TIMED_BEGIN_guard (P : Platform) (body : List Stmt) (pdata : Nat) (c : Ctx) :
    (c.self._timed_mutex ≠ 0 →
        TIMED_FUNCTION P body pdata CALLER_THREAD c = (c, RETURN_WAIT)) ∧
      (∀ caller, c.self._timed_mutex = 0 ∨ caller ≠ CALLER_THREAD →
        (c.self._timed_pt = 0 →
          TIMED_FUNCTION P body pdata caller c = runFrom P pdata caller body c) ∧
        (∀ pre st rest, body = pre ++ st :: rest →
          (∀ s ∈ pre, s.label ≠ some c.self._timed_pt) →
          st.label = some c.self._timed_pt → c.self._timed_pt ≠ 0 →
          TIMED_FUNCTION P body pdata caller c =
            match st.runCase caller c with
            | (c1, some r) => (c1, r)
            | (c1, none) => runFrom P pdata caller rest c1)) := by
  refine ⟨?_, ?_⟩
  · intro h
    simp [TIMED_FUNCTION, h]
  · intro caller hguard
    have hg : ¬ (c.self._timed_mutex ≠ 0 ∧ caller = CALLER_THREAD) := by
      rintro ⟨h1, h2⟩
      rcases hguard with h | h
      · exact h1 h
      · exact h h2
    refine ⟨?_, ?_⟩
    · intro h0
      unfold TIMED_FUNCTION
      rw [if_neg hg, if_pos h0]
    · intro pre st rest hbody hpre hst hpt
      rw [hbody]
      exact TIMED_FUNCTION_resume P pre rest st pdata caller c hpre hst hpt hguard

/-- C8, at a concrete input: a function that is waiting for the timer is polled. -/
theorem TIMED_BEGIN_guard_witness :
    TIMED_FUNCTION ⟨80, 1000⟩
        [Stmt.LOCK 84, Stmt.WAIT 98 7 1000 ⟨Member.data, 42⟩, Stmt.code 1] 42
        CALLER_THREAD ⟨⟨98, 1⟩, ⟨TIMER_RUN, ⟨0, 7, 42⟩, []⟩⟩ =
      (⟨⟨98, 1⟩, ⟨TIMER_RUN, ⟨0, 7, 42⟩, []⟩⟩, RETURN_WAIT) :=
  (TIMED_BEGIN_guard ⟨80, 1000⟩
    [Stmt.LOCK 84, Stmt.WAIT 98 7 1000 ⟨Member.data, 42⟩, Stmt.code 1] 42
    ⟨⟨98, 1⟩, ⟨TIMER_RUN, ⟨0, 7, 42⟩, []⟩⟩).1 (by decide)

/-- C7: `TIMED_END` returns `RETURN_DONE` and leaves `_timed_pt = 0`, `_timed_mutex = 0`;
every call of a timed function that returns `RETURN_DONE` leaves the statics equal to
their initial values, so the next call with `CALLER_THREAD` starts at the top of the body
and, on the same globals, does what a call of the fresh function does. -/
theorem TIMED_END_resets_statics (P : Platform) (body : List Stmt) (pdata caller : Nat)
    (c : Ctx) :
    TIMED_END c = (⟨⟨0, 0⟩, c.w⟩, RETURN_DONE) ∧
      ((TIMED_FUNCTION P body pdata caller c).2 = RETURN_DONE →
        (TIMED_FUNCTION P body pdata caller c).1.self = Statics.init ∧
        ∀ (w : World) (pdata1 : Nat),
          TIMED_FUNCTION P body pdata1 CALLER_THREAD
              ⟨(TIMED_FUNCTION P body pdata caller c).1.self, w⟩ =
            TIMED_FUNCTION P body pdata1 CALLER_THREAD ⟨Statics.init, w⟩ ∧
          TIMED_FUNCTION P body pdata1 CALLER_THREAD ⟨Statics.init, w⟩ =
            runFrom P pdata1 CALLER_THREAD body ⟨Statics.init, w⟩) := by
  refine ⟨rfl, ?_⟩
  intro h
  have hself : (TIMED_FUNCTION P body pdata caller c).1.self = Statics.init := by
    unfold TIMED_FUNCTION at h ⊢
    split
    · rename_i hg
      rw [if_pos hg] at h
      simp [RETURN_WAIT, RETURN_DONE] at h
    · rename_i hg
      rw [if_neg hg] at h
      split
      · rename_i h0
        rw [if_pos h0] at h
        exact runFrom_done P pdata caller body c h
      · rename_i h0
        rw [if_neg h0] at h
        exact switchTo_done P pdata caller _ body c h
  refine ⟨hself, ?_⟩
  intro w pdata1
  rw [hself]
  exact ⟨rfl, by simp [TIMED_FUNCTION, Statics.init]⟩

/-- C7, at a concrete input: the last poll of a function that has released the timer
runs its tail, returns `RETURN_DONE` and is back at its initial statics. -/
theorem TIMED_END_resets_statics_witness :
    (TIMED_FUNCTION ⟨80, 1000⟩
        [Stmt.WAIT 98 7 1000 ⟨Member.data, 42⟩, Stmt.RELEASE 120, Stmt.code 1] 42
        CALLER_THREAD ⟨⟨120, 0⟩, ⟨TIMER_FREE, ⟨0, 0, 42⟩, []⟩⟩).1.self = Statics.init :=
  ((TIMED_END_resets_statics ⟨80, 1000⟩
    [Stmt.WAIT 98 7 1000 ⟨Member.data, 42⟩, Stmt.RELEASE 120, Stmt.code 1] 42 CALLER_THREAD
    ⟨⟨120, 0⟩, ⟨TIMER_FREE, ⟨0, 0, 42⟩, []⟩⟩).2 (by decide)).1

/-- C6: a call with `CALLER_TIMER` whose execution reaches `TIMED_YIELD` or
`TIMED_RELEASE` returns `RETURN_WAIT` there, with `_timed_pt` set to that line and no
statement after the primitive executed; re-entered at that label, a call with
`CALLER_TIMER` returns `RETURN_WAIT` again and changes nothing, and a call with
`CALLER_THREAD` runs the statements after the primitive. -/
theorem TIMER_call_stops_at_YIELD_and_RELEASE (P : Platform) (pre rest : List Stmt)
    (line : Nat) (hline : line < 65536) (hline0 : line ≠ 0)
    (hpre : ∀ s ∈ pre, s.label ≠ some line) :
    (∀ (pdata : Nat) (c : Ctx),
        runFrom P pdata CALLER_TIMER (Stmt.YIELD line :: rest) c =
          (⟨⟨line, c.self._timed_mutex⟩, c.w⟩, RETURN_WAIT) ∧
        runFrom P pdata CALLER_TIMER (Stmt.RELEASE line :: rest) c =
          (⟨⟨line, c.self._timed_mutex⟩,
            ⟨TIMER_FREE, ⟨c.w.waitCb.timer, 0, c.w.waitCb.data⟩, c.w.trace⟩⟩, RETURN_WAIT)) ∧
      ∀ st, st = Stmt.YIELD line ∨ st = Stmt.RELEASE line →
        ∀ (pdata : Nat) (c : Ctx), c.self._timed_pt = line →
          TIMED_FUNCTION P (pre ++ st :: rest) pdata CALLER_TIMER c = (c, RETURN_WAIT) ∧
          (c.self._timed_mutex = 0 →
            TIMED_FUNCTION P (pre ++ st :: rest) pdata CALLER_THREAD c =
              runFrom P pdata CALLER_THREAD rest c) := by
  refine ⟨?_, ?_⟩
  · intro pdata c
    constructor
    · simp [runFrom, Stmt.run, TIMED_YIELD, TIMED_YIELD_case, setPt, Nat.mod_eq_of_lt hline]
    · simp [runFrom, Stmt.run, TIMED_RELEASE, TIMED_RELEASE_case, TIMED_RELEASE_free, setPt,
        Nat.mod_eq_of_lt hline]
  · intro st hst pdata c hpt
    have hlabel : st.label = some c.self._timed_pt := by
      rcases hst with h | h <;> simp [h, Stmt.label, hpt]
    have hpre1 : ∀ s ∈ pre, s.label ≠ some c.self._timed_pt := by rw [hpt]; exact hpre
    have hpt0 : c.self._timed_pt ≠ 0 := by rw [hpt]; exact hline0
    constructor
    · rw [TIMED_FUNCTION_resume P pre rest st pdata CALLER_TIMER c hpre1 hlabel hpt0
        (Or.inr (by decide))]
      rcases hst with h | h <;>
        simp [h, Stmt.runCase, TIMED_YIELD_case, TIMED_RELEASE_case]
    · intro hbusy
      rw [TIMED_FUNCTION_resume P pre rest st pdata CALLER_THREAD c hpre1 hlabel hpt0
        (Or.inl hbusy)]
      rcases hst with h | h <;>
        simp [h, Stmt.runCase, TIMED_YIELD_case, TIMED_RELEASE_case, CALLER_THREAD,
          CALLER_TIMER]

/-- C6, at a concrete input: the timer callback reaches the release at line 120 and
returns before the code after it. -/
theorem TIMER_call_stops_at_YIELD_and_RELEASE_witness :
    runFrom ⟨80, 1000⟩ 42 CALLER_TIMER [Stmt.RELEASE 120, Stmt.code 1]
        ⟨⟨98, 0⟩, ⟨TIMER_LOCK, ⟨0, 7, 42⟩, []⟩⟩ =
      (⟨⟨120, 0⟩, ⟨TIMER_FREE, ⟨0, 0, 42⟩, []⟩⟩, RETURN_WAIT) :=
  ((TIMER_call_stops_at_YIELD_and_RELEASE ⟨80, 1000⟩
    [Stmt.WAIT 98 7 1000 ⟨Member.data, 42⟩] [Stmt.code 1]
    120 (by decide) (by decide) (by decide)).1 42
    ⟨⟨98, 0⟩, ⟨TIMER_LOCK, ⟨0, 7, 42⟩, []⟩⟩).2

/-- C2: after a `TIMED_WAIT` at line `line` the function has `_timed_pt = line` and
`_timed_mutex = 1`; from then on every call with `CALLER_THREAD` returns `RETURN_WAIT`
and changes neither the statics nor the globals nor the trace; the call with
`CALLER_TIMER` that the interrupt handler makes enters at the label of that wait and
goes on with the statements written after it. -/
theorem wait_resumes_at_its_label (P : Platform) (pre rest : List Stmt)
    (line func time : Nat) (data : Arg) (hline : line < 65536) (hline0 : line ≠ 0)
    (hpre : ∀ s ∈ pre, s.label ≠ some line) :
    (∀ (pdata caller : Nat) (c : Ctx),
        (runFrom P pdata caller (Stmt.WAIT line func time data :: rest) c).2 = RETURN_WAIT ∧
        (runFrom P pdata caller (Stmt.WAIT line func time data :: rest) c).1.self =
          ⟨line, 1⟩) ∧
      (∀ (pdata : Nat) (w : World),
        TIMED_FUNCTION P (pre ++ Stmt.WAIT line func time data :: rest) pdata CALLER_THREAD
          ⟨⟨line, 1⟩, w⟩ = (⟨⟨line, 1⟩, w⟩, RETURN_WAIT)) ∧
      (∀ (pdata : Nat) (w : World), w.waitMutex ≠ TIMER_RUN →
        TIMED_FUNCTION P (pre ++ Stmt.WAIT line func time data :: rest) pdata CALLER_TIMER
          ⟨⟨line, 1⟩, w⟩ = runFrom P pdata CALLER_TIMER rest ⟨⟨line, 0⟩, w⟩) ∧
      (∀ (prog : Nat → List Stmt) (adj : Nat → timedCallback) (i : Nat) (sys : System)
          (fn : Nat), fn ≠ 0 → prog fn = pre ++ Stmt.WAIT line func time data :: rest →
        sys.statics fn = ⟨line, 1⟩ → sys.w.waitCb.callback = fn →
        timedFunctionsIntHandler P prog adj i sys =
          ⟨(runFrom P (waitCbAt sys.w adj i).data CALLER_TIMER rest
              ⟨⟨line, 0⟩, ⟨TIMER_LOCK, sys.w.waitCb, sys.w.trace ++
                [Event.TimerIntClear,
                 Event.callback fn (waitCbAt sys.w adj i).data CALLER_TIMER]⟩⟩).1.w,
            Function.update sys.statics fn
              (runFrom P (waitCbAt sys.w adj i).data CALLER_TIMER rest
                ⟨⟨line, 0⟩, ⟨TIMER_LOCK, sys.w.waitCb, sys.w.trace ++
                  [Event.TimerIntClear,
                   Event.callback fn (waitCbAt sys.w adj i).data CALLER_TIMER]⟩⟩).1.self⟩) := by
  have hthread : ∀ (pdata : Nat) (w : World),
      TIMED_FUNCTION P (pre ++ Stmt.WAIT line func time data :: rest) pdata CALLER_THREAD
        ⟨⟨line, 1⟩, w⟩ = (⟨⟨line, 1⟩, w⟩, RETURN_WAIT) := by
    intro pdata w
    simp [TIMED_FUNCTION]
  have htimer : ∀ (pdata : Nat) (w : World), w.waitMutex ≠ TIMER_RUN →
      TIMED_FUNCTION P (pre ++ Stmt.WAIT line func time data :: rest) pdata CALLER_TIMER
        ⟨⟨line, 1⟩, w⟩ = runFrom P pdata CALLER_TIMER rest ⟨⟨line, 0⟩, w⟩ := by
    intro pdata w hw
    rw [TIMED_FUNCTION_resume_WAIT P pre rest line func time data pdata ⟨⟨line, 1⟩, w⟩
      hpre rfl hline0, if_neg hw]
  refine ⟨?_, hthread, htimer, ?_⟩
  · intro pdata caller c
    simp [runFrom, Stmt.run, TIMED_WAIT_eq P line func time data c hline]
  · intro prog adj i sys fn hfn hprog hst hcb
    have hT := htimer (waitCbAt sys.w adj i).data
      ⟨TIMER_LOCK, sys.w.waitCb, sys.w.trace ++
        [Event.TimerIntClear, Event.callback fn (waitCbAt sys.w adj i).data CALLER_TIMER]⟩
      (by simp [TIMER_LOCK, TIMER_RUN])
    simp only [timedFunctionsIntHandler, invoke, hcb, hprog, hst, waitCbAt, ne_eq, hfn,
      not_false_eq_true, if_true, List.append_assoc, List.singleton_append] at hT ⊢
    rw [hT]

/-- C2, at a concrete input: a function suspended in its wait at line 98 is polled
while the timer is still running. -/
theorem wait_resumes_at_its_label_witness :
    TIMED_FUNCTION ⟨80, 1000⟩
        ([Stmt.LOCK 84] ++ Stmt.WAIT 98 7 1000 ⟨Member.data, 42⟩ :: [Stmt.code 1]) 5
        CALLER_THREAD ⟨⟨98, 1⟩, ⟨TIMER_RUN, ⟨0, 7, 42⟩, []⟩⟩ =
      (⟨⟨98, 1⟩, ⟨TIMER_RUN, ⟨0, 7, 42⟩, []⟩⟩, RETURN_WAIT) :=
  (wait_resumes_at_its_label ⟨80, 1000⟩ [Stmt.LOCK 84] [Stmt.code 1] 98 7 1000
    ⟨Member.data, 42⟩
    (by decide) (by decide) (by decide)).2.1 5 ⟨TIMER_RUN, ⟨0, 7, 42⟩, []⟩

/-- C5: the interrupt handler evaluated with the pending pair `(7, 42)`: it acknowledges
the interrupt, sets `waitMutex = TIMER_LOCK` and calls function 7 once with
`CALLER_TIMER`, but the data argument is `waitCb[i].data`: with `i = 1` the callback
receives 99, the data of the neighbouring record, and not the stored 42; only with
`i = 0` does it receive 42. -/
theorem timedFunctionsIntHandler_passes_indexed_data :
    (timedFunctionsIntHandler ⟨80, 1000⟩
        (fun _ => [Stmt.WAIT 98 7 1000 ⟨Member.data, 42⟩, Stmt.code 1, Stmt.RELEASE 120])
        (fun _ => ⟨0, 0, 99⟩) 1
        ⟨⟨TIMER_RUN, ⟨0, 7, 42⟩, []⟩, fun _ => ⟨98, 1⟩⟩).w =
      ⟨TIMER_FREE, ⟨0, 0, 42⟩,
        [Event.TimerIntClear, Event.callback 7 99 CALLER_TIMER, Event.userCode 1 99]⟩ ∧
    (timedFunctionsIntHandler ⟨80, 1000⟩
        (fun _ => [Stmt.WAIT 98 7 1000 ⟨Member.data, 42⟩, Stmt.code 1, Stmt.RELEASE 120])
        (fun _ => ⟨0, 0, 99⟩) 0
        ⟨⟨TIMER_RUN, ⟨0, 7, 42⟩, []⟩, fun _ => ⟨98, 1⟩⟩).w =
      ⟨TIMER_FREE, ⟨0, 0, 42⟩,
        [Event.TimerIntClear, Event.callback 7 42 CALLER_TIMER, Event.userCode 1 42]⟩ := by
  constructor <;> decide

/-! ## Mutual exclusion on the timer -/

/-- The labels of a body, statement by statement. -/
theorem labels_cons (st : Stmt) (r : List Stmt) :
    labels (st :: r) =
      match st.label with
      | some l => l :: labels r
      | none => labels r := by
  unfold labels
  cases h : st.label <;> simp [List.filterMap_cons, h]

/-- A resume point that is no label of the body is no place where the timer is held. -/
theorem heldAt_of_not_mem (pt : Nat) (h : Bool) (r : List Stmt) (hpt : pt ∉ labels r) :
    heldAt pt h r = false := by
  induction r generalizing h with
  | nil => rfl
  | cons st r ih =>
    rw [labels_cons] at hpt
    cases hl : st.label with
    | none =>
      simp only [hl] at hpt
      simp [heldAt, hl, ih _ hpt]
    | some l =>
      simp only [hl, List.mem_cons, not_or] at hpt
      have hne : l ≠ pt := fun e => hpt.1 e.symm
      simp [heldAt, hl, hne, ih _ hpt.2]

/-- The guarantee for the statements behind `st` gives the guarantee for `st :: r`, when
the label of `st` is not 0 and is not used again in `r`. -/
theorem SlotPost_cons (h : Bool) (st : Stmt) (r : List Stmt) (held0 : Bool) (c : Ctx)
    (res : Ctx × Nat) (hfresh : ∀ l, st.label = some l → l ≠ 0 ∧ l ∉ labels r)
    (hp : SlotPost (heldAfter h st) r held0 c res) : SlotPost h (st :: r) held0 c res := by
  obtain ⟨hA, hB, hC⟩ := hp
  have hne : st.label ≠ some res.1.self._timed_pt := by
    intro heq
    obtain ⟨h0, hnm⟩ := hfresh _ heq
    rcases hA with hA | hA
    · exact h0 hA
    · exact hnm hA
  have hheld : heldAt res.1.self._timed_pt h (st :: r) =
      heldAt res.1.self._timed_pt (heldAfter h st) r := by
    simp [heldAt, hne]
  refine ⟨?_, ?_, ?_⟩
  · rcases hA with hA | hA
    · exact Or.inl hA
    · right
      rw [labels_cons]
      cases hl : st.label with
      | none => exact hA
      | some l => exact List.mem_cons_of_mem l hA
  · rw [hheld]; exact hB
  · rw [hheld]; exact hC

/-- The label conditions of `st :: r` give those of `r` and the freshness of the label
of `st`. -/
theorem labels_cons_ok (st : Stmt) (r : List Stmt) (hnd : (labels (st :: r)).Nodup)
    (hrange : ∀ l ∈ labels (st :: r), 0 < l ∧ l < 65536) :
    (labels r).Nodup ∧ (∀ l ∈ labels r, 0 < l ∧ l < 65536) ∧
      (∀ l, st.label = some l → (l ≠ 0 ∧ l ∉ labels r) ∧ l < 65536) := by
  rw [labels_cons] at hnd hrange
  cases hl : st.label with
  | none =>
    simp only [hl] at hnd hrange
    exact ⟨hnd, hrange, fun l h => by simp at h⟩
  | some l0 =>
    simp only [hl] at hnd hrange
    refine ⟨(List.nodup_cons.mp hnd).2, fun l hm => hrange l (List.mem_cons_of_mem l0 hm), ?_⟩
    intro l heq
    have : l0 = l := Option.some.inj heq
    subst this
    have hr := hrange l0 (List.mem_cons_self l0 _)
    exact ⟨⟨by omega, (List.nodup_cons.mp hnd).1⟩, hr.2⟩

/-- The discipline of `st :: r` gives the discipline of `r`. -/
theorem disciplined_tail (h : Bool) (st : Stmt) (r : List Stmt)
    (hd : disciplined h (st :: r) = true) : disciplined (heldAfter h st) r = true := by
  cases st <;> simp_all [disciplined, heldAfter]

/-- The guarantee of a call that started later, in a context with the same `waitMutex`
and `waitCb`, is the guarantee of the whole call. -/
theorem SlotPost_change (h : Bool) (r : List Stmt) (held0 held1 : Bool) (c c1 : Ctx)
    (res : Ctx × Nat) (hp : SlotPost h r held1 c1 res)
    (hC : held0 = false → c.w.waitMutex ≠ TIMER_FREE →
      held1 = false ∧ c1.w.waitMutex = c.w.waitMutex ∧ c1.w.waitCb = c.w.waitCb) :
    SlotPost h r held0 c res := by
  obtain ⟨hA, hB, hC1⟩ := hp
  refine ⟨hA, hB, ?_⟩
  intro h0 hm
  obtain ⟨h1, e1, e2⟩ := hC h0 hm
  obtain ⟨r1, r2, r3⟩ := hC1 h1 (by rw [e1]; exact hm)
  exact ⟨r1.trans e1, r2.trans e2, r3⟩

/-- Straight-line execution of disciplined statements keeps the guarantee `SlotPost`. -/
theorem runFrom_slot (P : Platform) (pdata caller : Nat) (r : List Stmt) (h : Bool) (c : Ctx)
    (hd : disciplined h r = true) (hnd : (labels r).Nodup)
    (hrange : ∀ l ∈ labels r, 0 < l ∧ l < 65536)
    (hheld : h = true → c.w.waitMutex ≠ TIMER_FREE) :
    SlotPost h r h c (runFrom P pdata caller r c) := by
  induction r generalizing h c with
  | nil =>
    refine ⟨Or.inl rfl, ?_, ?_⟩
    · intro hh
      simp [heldAt] at hh
    · intro _ _
      exact ⟨rfl, rfl, rfl⟩
  | cons st r ih =>
    obtain ⟨hnd1, hrange1, hfresh⟩ := labels_cons_ok st r hnd hrange
    have hd1 := disciplined_tail h st r hd
    have hfresh1 : ∀ l, st.label = some l → l ≠ 0 ∧ l ∉ labels r := fun l hl => (hfresh l hl).1
    cases st with
    | LOCK line =>
      have hlt : line < 65536 := (hfresh line rfl).2
      by_cases hm : c.w.waitMutex = TIMER_FREE
      · have hrun : runFrom P pdata caller (Stmt.LOCK line :: r) c =
            runFrom P pdata caller r
              ⟨⟨line, c.self._timed_mutex⟩, ⟨TIMER_LOCK, c.w.waitCb, c.w.trace⟩⟩ := by
          simp [runFrom, Stmt.run, TIMED_LOCK, TIMED_LOCK_case, setPt, Nat.mod_eq_of_lt hlt, hm]
        rw [hrun]
        apply SlotPost_cons h _ r h c _ hfresh1
        apply SlotPost_change _ r h true c _ _
          (ih true _ hd1 hnd1 hrange1 (by intro _; simp [TIMER_LOCK, TIMER_FREE]))
        intro _ hc
        exact absurd hm hc
      · have hrun : runFrom P pdata caller (Stmt.LOCK line :: r) c =
            (⟨⟨line, c.self._timed_mutex⟩, c.w⟩, RETURN_WAIT) := by
          simp [runFrom, Stmt.run, TIMED_LOCK, TIMED_LOCK_case, setPt, Nat.mod_eq_of_lt hlt, hm]
        rw [hrun]
        refine ⟨Or.inr (by simp [labels_cons, Stmt.label]), ?_, ?_⟩
        · intro _
          exact hm
        · intro h0 _
          refine ⟨rfl, rfl, ?_⟩
          simp [heldAt, Stmt.label, heldAtCase, h0]
    | WAIT line func time data =>
      have hlt : line < 65536 := (hfresh line rfl).2
      have hh : h = true := by
        simp only [disciplined, Bool.and_eq_true] at hd
        exact hd.1
      have hrun : runFrom P pdata caller (Stmt.WAIT line func time data :: r) c =
          (⟨⟨line, 1⟩, ⟨TIMER_RUN,
            timedCallback.assign ⟨c.w.waitCb.timer, func, c.w.waitCb.data⟩ data,
            c.w.trace ++ [Event.TimerLoadSet64 ((P.time * P.CLOCKS_IN_US) % 2 ^ 64),
              Event.TimerEnable]⟩⟩, RETURN_WAIT) := by
        simp [runFrom, Stmt.run, TIMED_WAIT_eq P line func time data c hlt]
      rw [hrun]
      refine ⟨Or.inr (by simp [labels_cons, Stmt.label]), ?_, ?_⟩
      · intro _
        simp [TIMER_RUN, TIMER_FREE]
      · intro h0 _
        rw [hh] at h0
        exact absurd h0 (by decide)
    | YIELD line =>
      have hlt : line < 65536 := (hfresh line rfl).2
      by_cases hc : caller = CALLER_TIMER
      · have hrun : runFrom P pdata caller (Stmt.YIELD line :: r) c =
            (⟨⟨line, c.self._timed_mutex⟩, c.w⟩, RETURN_WAIT) := by
          simp [runFrom, Stmt.run, TIMED_YIELD, TIMED_YIELD_case, setPt,
            Nat.mod_eq_of_lt hlt, hc]
        rw [hrun]
        refine ⟨Or.inr (by simp [labels_cons, Stmt.label]), ?_, ?_⟩
        · intro hh
          have : h = true := by simpa [heldAt, Stmt.label, heldAtCase] using hh
          exact hheld this
        · intro h0 _
          refine ⟨rfl, rfl, ?_⟩
          simp [heldAt, Stmt.label, heldAtCase, h0]
      · have hrun : runFrom P pdata caller (Stmt.YIELD line :: r) c =
            runFrom P pdata caller r ⟨⟨line, c.self._timed_mutex⟩, c.w⟩ := by
          simp [runFrom, Stmt.run, TIMED_YIELD, TIMED_YIELD_case, setPt,
            Nat.mod_eq_of_lt hlt, hc]
        rw [hrun]
        apply SlotPost_cons h _ r h c _ hfresh1
        apply SlotPost_change _ r h h c _ _
          (ih h ⟨⟨line, c.self._timed_mutex⟩, c.w⟩ hd1 hnd1 hrange1 hheld)
        intro h0 _
        exact ⟨h0, rfl, rfl⟩
    | RELEASE line =>
      have hlt : line < 65536 := (hfresh line rfl).2
      have hh : h = true := by
        simp only [disciplined, Bool.and_eq_true] at hd
        exact hd.1
      by_cases hc : caller = CALLER_TIMER
      · have hrun : runFrom P pdata caller (Stmt.RELEASE line :: r) c =
            (⟨⟨line, c.self._timed_mutex⟩,
              ⟨TIMER_FREE, ⟨c.w.waitCb.timer, 0, c.w.waitCb.data⟩, c.w.trace⟩⟩,
              RETURN_WAIT) := by
          simp [runFrom, Stmt.run, TIMED_RELEASE, TIMED_RELEASE_case, TIMED_RELEASE_free,
            setPt, Nat.mod_eq_of_lt hlt, hc]
        rw [hrun]
        refine ⟨Or.inr (by simp [labels_cons, Stmt.label]), ?_, ?_⟩
        · intro hheld1
          simp [heldAt, Stmt.label, heldAtCase] at hheld1
        · intro h0 _
          rw [hh] at h0
          exact absurd h0 (by decide)
      · have hrun : runFrom P pdata caller (Stmt.RELEASE line :: r) c =
            runFrom P pdata caller r ⟨⟨line, c.self._timed_mutex⟩,
              ⟨TIMER_FREE, ⟨c.w.waitCb.timer, 0, c.w.waitCb.data⟩, c.w.trace⟩⟩ := by
          simp [runFrom, Stmt.run, TIMED_RELEASE, TIMED_RELEASE_case, TIMED_RELEASE_free,
            setPt, Nat.mod_eq_of_lt hlt, hc]
        rw [hrun]
        apply SlotPost_cons h _ r h c _ hfresh1
        apply SlotPost_change _ r h false c _ _
          (ih false _ hd1 hnd1 hrange1 (by intro hf; exact absurd hf (by decide)))
        intro h0 _
        rw [hh] at h0
        exact absurd h0 (by decide)
    | code tag =>
      have hrun : runFrom P pdata caller (Stmt.code tag :: r) c =
          runFrom P pdata caller r
            ⟨c.self, ⟨c.w.waitMutex, c.w.waitCb, c.w.trace ++ [Event.userCode tag pdata]⟩⟩ := by
        simp [runFrom, Stmt.run]
      rw [hrun]
      apply SlotPost_cons h _ r h c _ hfresh1
      apply SlotPost_change _ r h h c _ _
        (ih h ⟨c.self, ⟨c.w.waitMutex, c.w.waitCb, c.w.trace ++ [Event.userCode tag pdata]⟩⟩
          hd1 hnd1 hrange1 hheld)
      intro h0 _
      exact ⟨h0, rfl, rfl⟩

/-- The jump of the `switch` into disciplined statements keeps the guarantee `SlotPost`. -/
theorem switchTo_slot (P : Platform) (pdata caller : Nat) (r : List Stmt) (h : Bool) (c : Ctx)
    (hd : disciplined h r = true) (hnd : (labels r).Nodup)
    (hrange : ∀ l ∈ labels r, 0 < l ∧ l < 65536)
    (hheld : heldAt c.self._timed_pt h r = true → c.w.waitMutex ≠ TIMER_FREE) :
    SlotPost h r (heldAt c.self._timed_pt h r) c
      (switchTo P pdata caller c.self._timed_pt r c) := by
  induction r generalizing h with
  | nil =>
    refine ⟨Or.inl rfl, ?_, ?_⟩
    · intro hh
      simp [heldAt] at hh
    · intro _ _
      exact ⟨rfl, rfl, rfl⟩
  | cons st r ih =>
    obtain ⟨hnd1, hrange1, hfresh⟩ := labels_cons_ok st r hnd hrange
    have hd1 := disciplined_tail h st r hd
    have hfresh1 : ∀ l, st.label = some l → l ≠ 0 ∧ l ∉ labels r := fun l hl => (hfresh l hl).1
    by_cases hl : st.label = some c.self._timed_pt
    · have hmem : c.self._timed_pt ∈ labels (st :: r) := by
        rw [labels_cons, hl]
        exact List.mem_cons_self _ _
      have hheq : heldAt c.self._timed_pt h (st :: r) = heldAtCase h st := by
        simp [heldAt, hl]
      rw [hheq] at hheld ⊢
      cases st with
      | LOCK line =>
        by_cases hm : c.w.waitMutex = TIMER_FREE
        · have hrun : switchTo P pdata caller c.self._timed_pt (Stmt.LOCK line :: r) c =
              runFrom P pdata caller r ⟨c.self, ⟨TIMER_LOCK, c.w.waitCb, c.w.trace⟩⟩ := by
            simp [switchTo, hl, Stmt.runCase, TIMED_LOCK_case, hm]
          rw [hrun]
          apply SlotPost_cons h _ r _ c _ hfresh1
          apply SlotPost_change _ r _ true c _ _
            (runFrom_slot P pdata caller r true
              ⟨c.self, ⟨TIMER_LOCK, c.w.waitCb, c.w.trace⟩⟩ hd1 hnd1 hrange1
              (by intro _; simp [TIMER_LOCK, TIMER_FREE]))
          intro _ hc
          exact absurd hm hc
        · have hrun : switchTo P pdata caller c.self._timed_pt (Stmt.LOCK line :: r) c =
              (c, RETURN_WAIT) := by
            simp [switchTo, hl, Stmt.runCase, TIMED_LOCK_case, hm]
          rw [hrun]
          refine ⟨Or.inr hmem, ?_, ?_⟩
          · intro _
            exact hm
          · intro h0 _
            refine ⟨rfl, rfl, ?_⟩
            rw [hheq]
            exact h0
      | WAIT line func time data =>
        by_cases hm : c.w.waitMutex = TIMER_RUN
        · have hrun : switchTo P pdata caller c.self._timed_pt
              (Stmt.WAIT line func time data :: r) c = (c, RETURN_WAIT) := by
            simp [switchTo, hl, Stmt.runCase, TIMED_WAIT_case, hm]
          rw [hrun]
          refine ⟨Or.inr hmem, ?_, ?_⟩
          · intro _
            simp [hm, TIMER_RUN, TIMER_FREE]
          · intro h0 _
            simp [heldAtCase] at h0
        · have hrun : switchTo P pdata caller c.self._timed_pt
              (Stmt.WAIT line func time data :: r) c =
              runFrom P pdata caller r ⟨⟨c.self._timed_pt, 0⟩, c.w⟩ := by
            simp [switchTo, hl, Stmt.runCase, TIMED_WAIT_case, hm]
          rw [hrun]
          apply SlotPost_cons h _ r _ c _ hfresh1
          apply SlotPost_change _ r _ true c _ _
            (runFrom_slot P pdata caller r true ⟨⟨c.self._timed_pt, 0⟩, c.w⟩ hd1 hnd1 hrange1
              (by intro _; exact hheld rfl))
          intro h0 _
          simp [heldAtCase] at h0
      | YIELD line =>
        by_cases hc : caller = CALLER_TIMER
        · have hrun : switchTo P pdata caller c.self._timed_pt (Stmt.YIELD line :: r) c =
              (c, RETURN_WAIT) := by
            simp [switchTo, hl, Stmt.runCase, TIMED_YIELD_case, hc]
          rw [hrun]
          refine ⟨Or.inr hmem, ?_, ?_⟩
          · intro hh
            rw [hheq] at hh
            exact hheld hh
          · intro h0 _
            refine ⟨rfl, rfl, ?_⟩
            rw [hheq]
            exact h0
        · have hrun : switchTo P pdata caller c.self._timed_pt (Stmt.YIELD line :: r) c =
              runFrom P pdata caller r c := by
            simp [switchTo, hl, Stmt.runCase, TIMED_YIELD_case, hc]
          rw [hrun]
          apply SlotPost_cons h _ r _ c _ hfresh1
          exact runFrom_slot P pdata caller r h c hd1 hnd1 hrange1 hheld
      | RELEASE line =>
        by_cases hc : caller = CALLER_TIMER
        · have hrun : switchTo P pdata caller c.self._timed_pt (Stmt.RELEASE line :: r) c =
              (c, RETURN_WAIT) := by
            simp [switchTo, hl, Stmt.runCase, TIMED_RELEASE_case, hc]
          rw [hrun]
          refine ⟨Or.inr hmem, ?_, ?_⟩
          · intro hh
            rw [hheq] at hh
            simp [heldAtCase] at hh
          · intro _ _
            refine ⟨rfl, rfl, ?_⟩
            rw [hheq]
            rfl
        · have hrun : switchTo P pdata caller c.self._timed_pt (Stmt.RELEASE line :: r) c =
              runFrom P pdata caller r c := by
            simp [switchTo, hl, Stmt.runCase, TIMED_RELEASE_case, hc]
          rw [hrun]
          apply SlotPost_cons h _ r _ c _ hfresh1
          exact runFrom_slot P pdata caller r false c hd1 hnd1 hrange1
            (by intro hf; exact absurd hf (by decide))
      | code tag => simp [Stmt.label] at hl
    · have hheq : heldAt c.self._timed_pt h (st :: r) =
          heldAt c.self._timed_pt (heldAfter h st) r := by
        simp [heldAt, hl]
      have hrun : switchTo P pdata caller c.self._timed_pt (st :: r) c =
          switchTo P pdata caller c.self._timed_pt r c := by
        simp [switchTo, hl]
      rw [hheq] at hheld ⊢
      rw [hrun]
      apply SlotPost_cons h _ r _ c _ hfresh1
      exact ih (heldAfter h st) hd1 hnd1 hrange1 hheld

/-- The check `labelsOk` says that the labels are pairwise distinct, not 0 and below
65536. -/
theorem labelsOk_iff (body : List Stmt) :
    labelsOk body = true ↔
      (labels body).Nodup ∧ ∀ l ∈ labels body, 0 < l ∧ l < 65536 := by
  simp [labelsOk, List.all_eq_true]

/-- One call of a well-formed, disciplined timed function: if it holds the timer
afterwards, `waitMutex` is not free; and if it did not hold the timer and `waitMutex` was
not free, it left `waitMutex` and `waitCb` alone and still does not hold the timer. -/
theorem TIMED_FUNCTION_slot (P : Platform) (body : List Stmt) (pdata caller : Nat) (c : Ctx)
    (hok : labelsOk body = true) (hd : disciplined false body = true)
    (hheld : heldAt c.self._timed_pt false body = true → c.w.waitMutex ≠ TIMER_FREE) :
    (heldAt (TIMED_FUNCTION P body pdata caller c).1.self._timed_pt false body = true →
        (TIMED_FUNCTION P body pdata caller c).1.w.waitMutex ≠ TIMER_FREE) ∧
      (heldAt c.self._timed_pt false body = false → c.w.waitMutex ≠ TIMER_FREE →
        (TIMED_FUNCTION P body pdata caller c).1.w.waitMutex = c.w.waitMutex ∧
        (TIMED_FUNCTION P body pdata caller c).1.w.waitCb = c.w.waitCb ∧
        heldAt (TIMED_FUNCTION P body pdata caller c).1.self._timed_pt false body = false) := by
  obtain ⟨hnd, hrange⟩ := (labelsOk_iff body).mp hok
  unfold TIMED_FUNCTION
  split
  · exact ⟨hheld, fun h0 _ => ⟨rfl, rfl, h0⟩⟩
  · split
    · rename_i h0
      have hp := runFrom_slot P pdata caller body false c hd hnd hrange
        (by intro hf; exact absurd hf (by decide))
      exact ⟨hp.2.1, fun _ hm => hp.2.2 rfl hm⟩
    · have hp := switchTo_slot P pdata caller body false c hd hnd hrange hheld
      exact ⟨hp.2.1, fun h0 hm => hp.2.2 h0 hm⟩

/-- Who holds the timer after a call of the function at `f`. -/
theorem holds_invoke (P : Platform) (prog : Nat → List Stmt) (f pdata caller : Nat)
    (sys : System) (g : Nat) :
    holds prog (invoke P prog f pdata caller sys).1 g =
      if g = f then
        heldAt (TIMED_FUNCTION P (prog f) pdata caller ⟨sys.statics f, sys.w⟩).1.self._timed_pt
          false (prog f)
      else holds prog sys g := by
  by_cases h : g = f
  · subst h
    simp [holds, invoke]
  · simp [holds, invoke, Function.update, h]

/-- A call of a well-formed timed function keeps the invariant of the timer. -/
theorem invoke_SlotInv (P : Platform) (prog : Nat → List Stmt)
    (hwf : ∀ f, wellFormed (prog f) = true) (f pdata caller : Nat) (sys : System)
    (hinv : SlotInv prog sys) : SlotInv prog (invoke P prog f pdata caller sys).1 := by
  obtain ⟨huniq, hfree⟩ := hinv
  have hw := hwf f
  simp only [wellFormed, Bool.and_eq_true] at hw
  obtain ⟨hB, hC⟩ := TIMED_FUNCTION_slot P (prog f) pdata caller ⟨sys.statics f, sys.w⟩
    hw.1 hw.2 (hfree f)
  have hother : ∀ g, g ≠ f → holds prog sys g = true →
      (invoke P prog f pdata caller sys).1.w.waitMutex = sys.w.waitMutex ∧
      holds prog (invoke P prog f pdata caller sys).1 f = false := by
    intro g hg hgh
    have hf : holds prog sys f = false := by
      cases hh : holds prog sys f with
      | false => rfl
      | true => exact absurd (huniq g f hgh hh) hg
    obtain ⟨e1, _, e3⟩ := hC hf (hfree g hgh)
    refine ⟨e1, ?_⟩
    rw [holds_invoke, if_pos rfl]
    exact e3
  constructor
  · intro g1 g2 h1 h2
    by_cases e1 : g1 = f
    · by_cases e2 : g2 = f
      · rw [e1, e2]
      · rw [holds_invoke, if_neg e2] at h2
        rw [e1] at h1
        rw [(hother g2 e2 h2).2] at h1
        exact absurd h1 (by decide)
    · rw [holds_invoke, if_neg e1] at h1
      by_cases e2 : g2 = f
      · rw [e2] at h2
        rw [(hother g1 e1 h1).2] at h2
        exact absurd h2 (by decide)
      · rw [holds_invoke, if_neg e2] at h2
        exact huniq g1 g2 h1 h2
  · intro g hg
    by_cases e : g = f
    · rw [holds_invoke, if_pos e] at hg
      exact hB hg
    · rw [holds_invoke, if_neg e] at hg
      rw [(hother g e hg).1]
      exact hfree g hg

/-- The interrupt handler keeps the invariant of the timer. -/
theorem timedFunctionsIntHandler_SlotInv (P : Platform) (prog : Nat → List Stmt)
    (hwf : ∀ f, wellFormed (prog f) = true) (adj : Nat → timedCallback) (i : Nat)
    (sys : System) (hinv : SlotInv prog sys) :
    SlotInv prog (timedFunctionsIntHandler P prog adj i sys) := by
  have hlock : ∀ (tr : List Event),
      SlotInv prog ⟨⟨TIMER_LOCK, sys.w.waitCb, tr⟩, sys.statics⟩ := by
    intro tr
    exact ⟨fun f g hf hg => hinv.1 f g hf hg, fun _ _ => by simp [TIMER_LOCK, TIMER_FREE]⟩
  unfold timedFunctionsIntHandler
  by_cases hcb : sys.w.waitCb.callback = 0
  · simp only [hcb, ne_eq, not_true_eq_false, if_false]
    exact hlock _
  · simp only [hcb, ne_eq, not_false_eq_true, if_true]
    exact invoke_SlotInv P prog hwf _ _ _ _ (hlock _)

/-- Every sequence of polls and timer interrupts keeps the invariant of the timer. -/
theorem runTicks_SlotInv (P : Platform) (prog : Nat → List Stmt)
    (hwf : ∀ f, wellFormed (prog f) = true) (adj : Nat → timedCallback)
    (ticks : List Tick) (sys : System) (hinv : SlotInv prog sys) :
    SlotInv prog (runTicks P prog adj sys ticks) := by
  induction ticks generalizing sys with
  | nil => exact hinv
  | cons t ticks ih =>
    have hstep : SlotInv prog (step P prog adj sys t) := by
      cases t with
      | poll fn pdata => exact invoke_SlotInv P prog hwf fn pdata CALLER_THREAD sys hinv
      | irq i => exact timedFunctionsIntHandler_SlotInv P prog hwf adj i sys hinv
    exact ih _ hstep

/-- In the initial state no function holds the timer. -/
theorem init_SlotInv (prog : Nat → List Stmt) (hwf : ∀ f, wellFormed (prog f) = true) :
    SlotInv prog System.init := by
  have hno : ∀ f, holds prog System.init f = false := by
    intro f
    have hw := hwf f
    simp only [wellFormed, Bool.and_eq_true] at hw
    obtain ⟨_, hrange⟩ := (labelsOk_iff (prog f)).mp hw.1
    apply heldAt_of_not_mem
    intro hmem
    exact absurd (hrange _ hmem).1 (by simp [System.init, Statics.init])
  exact ⟨fun f g hf _ => by rw [hno f] at hf; exact absurd hf (by decide),
    fun f hf => by rw [hno f] at hf; exact absurd hf (by decide)⟩

/-- C1 as stated fails: `TIMED_WAIT` does not look at `waitMutex`. Function 1 waits and
holds the timer with the pending pair `(1, 41)`; the poll of function 2, which also
waits without locking, returns `RETURN_WAIT` but overwrites the pending pair with
`(2, 42)`, and afterwards both functions hold the timer. -/
theorem unguarded_wait_takes_over_timer :
    labelsOk (unlockedTasks 1) = true ∧ labelsOk (unlockedTasks 2) = true ∧
    holds unlockedTasks
      (runTicks ⟨80, 1000⟩ unlockedTasks (fun _ => ⟨0, 0, 0⟩) System.init [Tick.poll 1 0])
      1 = true ∧
    (runTicks ⟨80, 1000⟩ unlockedTasks (fun _ => ⟨0, 0, 0⟩) System.init
      [Tick.poll 1 0]).w.waitCb = ⟨0, 1, 41⟩ ∧
    (invoke ⟨80, 1000⟩ unlockedTasks 2 0 CALLER_THREAD
      (runTicks ⟨80, 1000⟩ unlockedTasks (fun _ => ⟨0, 0, 0⟩) System.init
        [Tick.poll 1 0])).2 = RETURN_WAIT ∧
    (runTicks ⟨80, 1000⟩ unlockedTasks (fun _ => ⟨0, 0, 0⟩) System.init
      [Tick.poll 1 0, Tick.poll 2 0]).w.waitCb = ⟨0, 2, 42⟩ ∧
    holds unlockedTasks
      (runTicks ⟨80, 1000⟩ unlockedTasks (fun _ => ⟨0, 0, 0⟩) System.init
        [Tick.poll 1 0, Tick.poll 2 0]) 1 = true ∧
    holds unlockedTasks
      (runTicks ⟨80, 1000⟩ unlockedTasks (fun _ => ⟨0, 0, 0⟩) System.init
        [Tick.poll 1 0, Tick.poll 2 0]) 2 = true := by
  decide

/-- C1, amended: when every timed function is well formed and follows the locking
discipline (`TIMED_WAIT` and `TIMED_RELEASE` only behind its own `TIMED_LOCK`, release
before `TIMED_END`), then after every sequence of polls and timer interrupts from the
initial state at most one function holds the timer; and while `f` holds it, `waitMutex`
is not free, `TIMED_LOCK` in any function returns `RETURN_WAIT` without touching the
globals, and a poll of any other function leaves `waitMutex` and the pending pair as
they were, does not make that function a holder and leaves `f` the holder. -/
theorem at_most_one_holder (P : Platform) (prog : Nat → List Stmt)
    (adj : Nat → timedCallback) (hwf : ∀ f, wellFormed (prog f) = true)
    (ticks : List Tick) :
    (∀ f g, holds prog (runTicks P prog adj System.init ticks) f = true →
        holds prog (runTicks P prog adj System.init ticks) g = true → f = g) ∧
      (∀ f, holds prog (runTicks P prog adj System.init ticks) f = true →
        (runTicks P prog adj System.init ticks).w.waitMutex ≠ TIMER_FREE ∧
        (∀ (self : Statics) (line : Nat),
          TIMED_LOCK line ⟨self, (runTicks P prog adj System.init ticks).w⟩ =
            (setPt line ⟨self, (runTicks P prog adj System.init ticks).w⟩,
              some RETURN_WAIT)) ∧
        (∀ g pdata, g ≠ f →
          (invoke P prog g pdata CALLER_THREAD
            (runTicks P prog adj System.init ticks)).1.w.waitMutex =
              (runTicks P prog adj System.init ticks).w.waitMutex ∧
          (invoke P prog g pdata CALLER_THREAD
            (runTicks P prog adj System.init ticks)).1.w.waitCb =
              (runTicks P prog adj System.init ticks).w.waitCb ∧
          holds prog (invoke P prog g pdata CALLER_THREAD
            (runTicks P prog adj System.init ticks)).1 g = false ∧
          holds prog (invoke P prog g pdata CALLER_THREAD
            (runTicks P prog adj System.init ticks)).1 f = true)) := by
  have hinv := runTicks_SlotInv P prog hwf adj ticks System.init (init_SlotInv prog hwf)
  generalize runTicks P prog adj System.init ticks = sys at hinv
  obtain ⟨huniq, hfree⟩ := hinv
  refine ⟨huniq, ?_⟩
  intro f hf
  have hm := hfree f hf
  refine ⟨hm, ?_, ?_⟩
  · intro self line
    simp [TIMED_LOCK, TIMED_LOCK_case, setPt, hm]
  · intro g pdata hg
    have hgh : holds prog sys g = false := by
      cases hh : holds prog sys g with
      | false => rfl
      | true => exact absurd (huniq g f hh hf) hg
    have hw := hwf g
    simp only [wellFormed, Bool.and_eq_true] at hw
    obtain ⟨_, hC⟩ := TIMED_FUNCTION_slot P (prog g) pdata CALLER_THREAD
      ⟨sys.statics g, sys.w⟩ hw.1 hw.2 (hfree g)
    obtain ⟨e1, e2, e3⟩ := hC hgh hm
    refine ⟨e1, e2, ?_, ?_⟩
    · rw [holds_invoke, if_pos rfl]
      exact e3
    · rw [holds_invoke, if_neg (Ne.symm hg)]
      exact hf

/-- Both functions of `lockingTasks` are well formed and disciplined. -/
theorem lockingTasks_wellFormed : ∀ f, wellFormed (lockingTasks f) = true := by
  intro f
  by_cases h : f = 1
  · subst h
    decide
  · simp only [lockingTasks, if_neg h]
    decide

/-- C1 amended, at a concrete input: function 1 has locked the timer and waits; a poll of
function 2, which tries to lock the timer, leaves the pending pair `(1, 41)` in place. -/
theorem at_most_one_holder_witness :
    holds lockingTasks
      (runTicks ⟨80, 1000⟩ lockingTasks (fun _ => ⟨0, 0, 0⟩) System.init [Tick.poll 1 0])
      1 = true ∧
    (invoke ⟨80, 1000⟩ lockingTasks 2 0 CALLER_THREAD
      (runTicks ⟨80, 1000⟩ lockingTasks (fun _ => ⟨0, 0, 0⟩) System.init
        [Tick.poll 1 0])).1.w.waitCb = ⟨0, 1, 41⟩ :=
  ⟨by decide,
    ((((at_most_one_holder ⟨80, 1000⟩ lockingTasks (fun _ => ⟨0, 0, 0⟩)
      lockingTasks_wellFormed [Tick.poll 1 0]).2 1 (by decide)).2.2 2 0 (by decide)).2.1).trans
      (by decide)⟩

/-! ## The timer load, the spurious interrupt and the yield -/

/-- C11: the value loaded into the timer does not depend on the duration given to
`TIMED_WAIT`: `timedLoadTimer` never reads its argument `value` and loads
`time * CLOCKS_IN_US` from an identifier `time` of its own. With `CLOCKS_IN_US = 80`, a
wait of 1000 and that `time` being 3, the macro passes `1000 * 80 = 80000` and the timer
is loaded with 240. -/
theorem timedLoadTimer_ignores_duration :
    (∀ (P : Platform) (line func d1 d2 : Nat) (data : Arg) (c : Ctx),
        (TIMED_WAIT P line func d1 data c).1.w.trace =
          (TIMED_WAIT P line func d2 data c).1.w.trace) ∧
      timedLoadTimer ⟨80, 3⟩ (1000 * 80) ⟨TIMER_RUN, ⟨0, 7, 42⟩, []⟩ =
        ⟨TIMER_RUN, ⟨0, 7, 42⟩, [Event.TimerLoadSet64 240, Event.TimerEnable]⟩ ∧
      (TIMED_WAIT ⟨80, 3⟩ 98 7 1000 ⟨Member.data, 42⟩ ⟨⟨84, 0⟩, ⟨TIMER_LOCK, ⟨0, 0, 0⟩, []⟩⟩).1.w.trace =
        [Event.TimerLoadSet64 240, Event.TimerEnable] := by
  refine ⟨?_, by decide, by decide⟩
  intro P line func d1 d2 data c
  simp [TIMED_WAIT, TIMED_WAIT_arm, TIMED_WAIT_case, timedLoadTimer, setPt]

/-- C12 as stated fails: the interrupt taken in the initial state, where the timer is
free and no handler is pending, is not a no-op besides the acknowledgement: it leaves
`waitMutex = TIMER_LOCK`, and a `TIMED_LOCK` that would have succeeded before now returns
`RETURN_WAIT`. -/
theorem spurious_interrupt_locks_timer :
    System.init.w.waitCb.callback = 0 ∧ System.init.w.waitMutex = TIMER_FREE ∧
    (timedFunctionsIntHandler ⟨80, 1000⟩ lockingTasks (fun _ => ⟨0, 0, 0⟩) 0
        System.init).w.waitMutex = TIMER_LOCK ∧
    (timedFunctionsIntHandler ⟨80, 1000⟩ lockingTasks (fun _ => ⟨0, 0, 0⟩) 0
        System.init).w ≠
      { System.init.w with trace := System.init.w.trace ++ [Event.TimerIntClear] } ∧
    (TIMED_LOCK 84 ⟨Statics.init, System.init.w⟩).2 = none ∧
    (TIMED_LOCK 84 ⟨Statics.init,
      (timedFunctionsIntHandler ⟨80, 1000⟩ lockingTasks (fun _ => ⟨0, 0, 0⟩) 0
        System.init).w⟩).2 = some RETURN_WAIT := by
  decide

/-- C12, amended: when no handler is pending (`waitCb.callback` is null), the interrupt
handler acknowledges the interrupt and sets `waitMutex = TIMER_LOCK`, and does nothing
else: no function is called, `waitCb[i]` is not read (the result is the same for every
`i` and every neighbouring memory), and `waitCb` and all statics are left as they were. -/
theorem timedFunctionsIntHandler_without_handler (P : Platform) (prog : Nat → List Stmt)
    (adj : Nat → timedCallback) (i : Nat) (sys : System)
    (hnull : sys.w.waitCb.callback = 0) :
    (timedFunctionsIntHandler P prog adj i sys).w =
        ⟨TIMER_LOCK, sys.w.waitCb, sys.w.trace ++ [Event.TimerIntClear]⟩ ∧
      (timedFunctionsIntHandler P prog adj i sys).statics = sys.statics := by
  simp [timedFunctionsIntHandler, hnull]

/-- C12 amended, at a concrete input: a spurious interrupt while a released function
is suspended at line 120. -/
theorem timedFunctionsIntHandler_without_handler_witness :
    (timedFunctionsIntHandler ⟨80, 1000⟩ lockingTasks (fun _ => ⟨0, 0, 99⟩) 1
        ⟨⟨TIMER_FREE, ⟨0, 0, 41⟩, []⟩, fun _ => ⟨120, 0⟩⟩).w =
      ⟨TIMER_LOCK, ⟨0, 0, 41⟩, [Event.TimerIntClear]⟩ :=
  (timedFunctionsIntHandler_without_handler ⟨80, 1000⟩ lockingTasks (fun _ => ⟨0, 0, 99⟩) 1
    ⟨⟨TIMER_FREE, ⟨0, 0, 41⟩, []⟩, fun _ => ⟨120, 0⟩⟩ rfl).1

/-- C13: `TIMED_YIELD()` at line `line`, for every caller and every state of the globals,
leaves `waitMutex`, `waitCb`, the trace and `_timed_mutex` as they were and writes only
`_timed_pt`; entered at its label it writes nothing at all. With `CALLER_TIMER` it
returns `RETURN_WAIT`, otherwise it falls through. -/
theorem TIMED_YIELD_writes_only_resume_point (line caller : Nat) (c : Ctx) :
    (TIMED_YIELD line caller c).1 = ⟨⟨line % 65536, c.self._timed_mutex⟩, c.w⟩ ∧
      (TIMED_YIELD_case caller c).1 = c ∧
      (TIMED_YIELD line caller c).2 =
        (if caller = CALLER_TIMER then some RETURN_WAIT else none) ∧
      (TIMED_YIELD_case caller c).2 =
        (if caller = CALLER_TIMER then some RETURN_WAIT else none) := by
  by_cases h : caller = CALLER_TIMER <;>
    simp [TIMED_YIELD, TIMED_YIELD_case, setPt, h]

/-! ## The life cycle of a function that locks, waits and releases -/

/-- The first poll of a fresh lock-wait-release function while the timer is free. -/
theorem lifecycle_first_poll (P : Platform) (prog : Nat → List Stmt)
    (self l1 l2 l3 d p pd1 : Nat) (sys : System)
    (hprog : prog self = [Stmt.LOCK l1, Stmt.WAIT l2 self d ⟨Member.data, p⟩, Stmt.RELEASE l3])
    (h2 : l2 < 65536)
    (hinit : sys.statics self = Statics.init) (hfree : sys.w.waitMutex = TIMER_FREE) :
    invoke P prog self pd1 CALLER_THREAD sys =
      (⟨⟨TIMER_RUN, ⟨sys.w.waitCb.timer, self, p⟩,
          sys.w.trace ++ [Event.TimerLoadSet64 ((P.time * P.CLOCKS_IN_US) % 2 ^ 64),
            Event.TimerEnable]⟩, Function.update sys.statics self ⟨l2, 1⟩⟩, RETURN_WAIT) := by
  simp [invoke, hprog, hinit, TIMED_FUNCTION, Statics.init, runFrom, Stmt.run, TIMED_LOCK,
    TIMED_LOCK_case, setPt, hfree, TIMED_WAIT, TIMED_WAIT_arm, TIMED_WAIT_case,
    timedLoadTimer, timedCallback.assign, Nat.mod_eq_of_lt h2]

/-- A call with `CALLER_TIMER` of a lock-wait-release function that is suspended in its
wait, made after the handler has set `TIMER_LOCK`. -/
theorem lifecycle_timer_call (P : Platform) (prog : Nat → List Stmt)
    (self l1 l2 l3 d p pdata : Nat) (st : Nat → Statics) (cb : timedCallback)
    (tr : List Event)
    (hprog : prog self = [Stmt.LOCK l1, Stmt.WAIT l2 self d ⟨Member.data, p⟩, Stmt.RELEASE l3])
    (h3 : l3 < 65536) (h20 : l2 ≠ 0) (h12 : l1 ≠ l2) (hst : st self = ⟨l2, 1⟩) :
    invoke P prog self pdata CALLER_TIMER ⟨⟨TIMER_LOCK, cb, tr⟩, st⟩ =
      (⟨⟨TIMER_FREE, ⟨cb.timer, 0, cb.data⟩, tr⟩, Function.update st self ⟨l3, 0⟩⟩,
        RETURN_WAIT) := by
  simp [invoke, hprog, hst, TIMED_FUNCTION, switchTo,
    Stmt.label, Stmt.runCase, h12, h20, TIMED_WAIT_case, runFrom, Stmt.run, TIMED_RELEASE,
    TIMED_RELEASE_case, TIMED_RELEASE_free, setPt, Nat.mod_eq_of_lt h3,
    TIMER_LOCK, TIMER_RUN, CALLER_TIMER, CALLER_THREAD]

/-- The timer interrupt taken while a lock-wait-release function is suspended in its
wait. -/
theorem lifecycle_interrupt (P : Platform) (prog : Nat → List Stmt)
    (adj : Nat → timedCallback) (i self l1 l2 l3 d p : Nat) (st : Nat → Statics)
    (tm : Nat) (tr : List Event) (hself : self ≠ 0)
    (hprog : prog self = [Stmt.LOCK l1, Stmt.WAIT l2 self d ⟨Member.data, p⟩, Stmt.RELEASE l3])
    (h3 : l3 < 65536) (h20 : l2 ≠ 0) (h12 : l1 ≠ l2) (hst : st self = ⟨l2, 1⟩) :
    timedFunctionsIntHandler P prog adj i ⟨⟨TIMER_RUN, ⟨tm, self, p⟩, tr⟩, st⟩ =
      ⟨⟨TIMER_FREE, ⟨tm, 0, p⟩, tr ++ [Event.TimerIntClear,
          Event.callback self (waitCbAt ⟨TIMER_RUN, ⟨tm, self, p⟩, tr⟩ adj i).data
            CALLER_TIMER]⟩,
        Function.update st self ⟨l3, 0⟩⟩ := by
  simp [timedFunctionsIntHandler, invoke, hprog, hst, hself, TIMED_FUNCTION, switchTo,
    Stmt.label, Stmt.runCase, h12, h20, TIMED_WAIT_case, runFrom, Stmt.run, TIMED_RELEASE,
    TIMED_RELEASE_case, TIMED_RELEASE_free, setPt, Nat.mod_eq_of_lt h3, waitCbAt,
    TIMER_LOCK, TIMER_RUN, TIMER_FREE, CALLER_TIMER, CALLER_THREAD]

/-- The poll of a lock-wait-release function that is suspended behind its release. -/
theorem lifecycle_last_poll (P : Platform) (prog : Nat → List Stmt)
    (self l1 l2 l3 d p pd3 : Nat) (st : Nat → Statics) (w : World)
    (hprog : prog self = [Stmt.LOCK l1, Stmt.WAIT l2 self d ⟨Member.data, p⟩, Stmt.RELEASE l3])
    (h30 : l3 ≠ 0) (h13 : l1 ≠ l3) (h23 : l2 ≠ l3)
    (hst : st self = ⟨l3, 0⟩) :
    invoke P prog self pd3 CALLER_THREAD ⟨w, st⟩ =
      (⟨w, Function.update st self ⟨0, 0⟩⟩, RETURN_DONE) := by
  simp [invoke, hprog, hst, TIMED_FUNCTION, switchTo,
    Stmt.label, Stmt.runCase, h13, h23, h30, runFrom, TIMED_RELEASE_case, TIMED_END,
    CALLER_TIMER, CALLER_THREAD]

/-- The round trip of a function whose body is `TIMED_LOCK; TIMED_WAIT(self, d, data);
TIMED_RELEASE` with the third argument of the wait spelled `data` and holding `p`,
started with fresh statics while the timer is free. The first poll returns
`RETURN_WAIT` and leaves `waitMutex = TIMER_RUN`, the pending pair `(self, p)`,
`_timed_mutex = 1`; the interrupt handler then calls it with `CALLER_TIMER`, that call
returns `RETURN_WAIT`, and the handler leaves `waitMutex = TIMER_FREE`, no pending
handler, `_timed_mutex = 0`; the next poll returns `RETURN_DONE` and leaves
`_timed_pt = 0`, `_timed_mutex = 0` and `waitMutex = TIMER_FREE`. -/
theorem round_trip_with_argument_named_data (P : Platform) (prog : Nat → List Stmt)
    (adj : Nat → timedCallback) (i self l1 l2 l3 d p pd1 pd3 : Nat) (sys : System)
    (hself : self ≠ 0)
    (hprog : prog self = [Stmt.LOCK l1, Stmt.WAIT l2 self d ⟨Member.data, p⟩, Stmt.RELEASE l3])
    (h2 : l2 < 65536) (h3 : l3 < 65536) (h20 : l2 ≠ 0) (h30 : l3 ≠ 0)
    (h12 : l1 ≠ l2) (h13 : l1 ≠ l3) (h23 : l2 ≠ l3)
    (hinit : sys.statics self = Statics.init) (hfree : sys.w.waitMutex = TIMER_FREE) :
    (invoke P prog self pd1 CALLER_THREAD sys).2 = RETURN_WAIT ∧
    (runTicks P prog adj sys [Tick.poll self pd1]).w.waitMutex = TIMER_RUN ∧
    (runTicks P prog adj sys [Tick.poll self pd1]).w.waitCb =
      ⟨sys.w.waitCb.timer, self, p⟩ ∧
    (runTicks P prog adj sys [Tick.poll self pd1]).statics self = ⟨l2, 1⟩ ∧
    (∀ (pdata : Nat) (tr : List Event),
      (invoke P prog self pdata CALLER_TIMER
        ⟨⟨TIMER_LOCK, (runTicks P prog adj sys [Tick.poll self pd1]).w.waitCb, tr⟩,
          (runTicks P prog adj sys [Tick.poll self pd1]).statics⟩).2 = RETURN_WAIT) ∧
    (runTicks P prog adj sys [Tick.poll self pd1, Tick.irq i]).w.waitMutex = TIMER_FREE ∧
    (runTicks P prog adj sys [Tick.poll self pd1, Tick.irq i]).w.waitCb =
      ⟨sys.w.waitCb.timer, 0, p⟩ ∧
    (runTicks P prog adj sys [Tick.poll self pd1, Tick.irq i]).statics self = ⟨l3, 0⟩ ∧
    (invoke P prog self pd3 CALLER_THREAD
      (runTicks P prog adj sys [Tick.poll self pd1, Tick.irq i])).2 = RETURN_DONE ∧
    (runTicks P prog adj sys
      [Tick.poll self pd1, Tick.irq i, Tick.poll self pd3]).statics self = ⟨0, 0⟩ ∧
    (runTicks P prog adj sys
      [Tick.poll self pd1, Tick.irq i, Tick.poll self pd3]).w.waitMutex = TIMER_FREE ∧
    (runTicks P prog adj sys
      [Tick.poll self pd1, Tick.irq i, Tick.poll self pd3]).w.waitCb.callback = 0 := by
  have hA := lifecycle_first_poll P prog self l1 l2 l3 d p pd1 sys hprog h2 hinit hfree
  have hB := lifecycle_interrupt P prog adj i self l1 l2 l3 d p
    (Function.update sys.statics self ⟨l2, 1⟩) sys.w.waitCb.timer
    (sys.w.trace ++ [Event.TimerLoadSet64 ((P.time * P.CLOCKS_IN_US) % 2 ^ 64),
      Event.TimerEnable]) hself hprog h3 h20 h12 (by simp)
  have eA : runTicks P prog adj sys [Tick.poll self pd1] =
      ⟨⟨TIMER_RUN, ⟨sys.w.waitCb.timer, self, p⟩,
          sys.w.trace ++ [Event.TimerLoadSet64 ((P.time * P.CLOCKS_IN_US) % 2 ^ 64),
            Event.TimerEnable]⟩, Function.update sys.statics self ⟨l2, 1⟩⟩ := by
    show (invoke P prog self pd1 CALLER_THREAD sys).1 = _
    rw [hA]
  have eB : runTicks P prog adj sys [Tick.poll self pd1, Tick.irq i] =
      timedFunctionsIntHandler P prog adj i
        (runTicks P prog adj sys [Tick.poll self pd1]) := rfl
  rw [eA, hB] at eB
  have hC := lifecycle_last_poll P prog self l1 l2 l3 d p pd3
    (Function.update (Function.update sys.statics self ⟨l2, 1⟩) self ⟨l3, 0⟩)
    ⟨TIMER_FREE, ⟨sys.w.waitCb.timer, 0, p⟩,
      (sys.w.trace ++ [Event.TimerLoadSet64 ((P.time * P.CLOCKS_IN_US) % 2 ^ 64),
        Event.TimerEnable]) ++ [Event.TimerIntClear,
        Event.callback self (waitCbAt ⟨TIMER_RUN, ⟨sys.w.waitCb.timer, self, p⟩,
          sys.w.trace ++ [Event.TimerLoadSet64 ((P.time * P.CLOCKS_IN_US) % 2 ^ 64),
            Event.TimerEnable]⟩ adj i).data CALLER_TIMER]⟩
    hprog h30 h13 h23 (by simp)
  have eC : runTicks P prog adj sys [Tick.poll self pd1, Tick.irq i, Tick.poll self pd3] =
      (invoke P prog self pd3 CALLER_THREAD
        (runTicks P prog adj sys [Tick.poll self pd1, Tick.irq i])).1 := rfl
  rw [eB, hC] at eC
  refine ⟨by rw [hA], by rw [eA], by rw [eA], by rw [eA]; simp, ?_, by rw [eB], by rw [eB],
    by rw [eB]; simp, by rw [eB, hC], by rw [eC]; simp, by rw [eC], by rw [eC]⟩
  intro pdata tr
  rw [eA, lifecycle_timer_call P prog self l1 l2 l3 d p pdata _ _ tr hprog h3 h20 h12
    (by simp)]

/-- C14: the round trip of a function whose body is `TIMED_LOCK; TIMED_WAIT(self, d, p);
TIMED_RELEASE` depends on how the third argument of the wait is spelled. With a
variable `callback` holding a null pointer, the first poll of function 1 leaves no
pending handler instead of `(1, p)`; the interrupt then calls nothing and leaves
`waitMutex = TIMER_LOCK` with the function still at its wait, `_timed_mutex = 1`, and
the next poll returns `RETURN_WAIT`, not `RETURN_DONE`. With a variable `timer` holding
41 the first poll leaves the pending pair `(1, 0)` and `waitCb.timer = 41`. With a
variable `data` holding 41 (`lockingTasks`) the round trip is as the claim says. -/
theorem round_trip_depends_on_argument_name :
    (runTicks ⟨80, 1000⟩ callbackArgTask (fun _ => ⟨0, 0, 0⟩) System.init
      [Tick.poll 1 0]).w =
        ⟨TIMER_RUN, ⟨0, 0, 0⟩, [Event.TimerLoadSet64 80000, Event.TimerEnable]⟩ ∧
    (runTicks ⟨80, 1000⟩ callbackArgTask (fun _ => ⟨0, 0, 0⟩) System.init
      [Tick.poll 1 0, Tick.irq 0]).w =
        ⟨TIMER_LOCK, ⟨0, 0, 0⟩,
          [Event.TimerLoadSet64 80000, Event.TimerEnable, Event.TimerIntClear]⟩ ∧
    (runTicks ⟨80, 1000⟩ callbackArgTask (fun _ => ⟨0, 0, 0⟩) System.init
      [Tick.poll 1 0, Tick.irq 0]).statics 1 = ⟨98, 1⟩ ∧
    (invoke ⟨80, 1000⟩ callbackArgTask 1 0 CALLER_THREAD
      (runTicks ⟨80, 1000⟩ callbackArgTask (fun _ => ⟨0, 0, 0⟩) System.init
        [Tick.poll 1 0, Tick.irq 0])).2 = RETURN_WAIT ∧
    (runTicks ⟨80, 1000⟩ callbackArgTask (fun _ => ⟨0, 0, 0⟩) System.init
      [Tick.poll 1 0, Tick.irq 0, Tick.poll 1 0]).statics 1 = ⟨98, 1⟩ ∧
    (runTicks ⟨80, 1000⟩ timerArgTask (fun _ => ⟨0, 0, 0⟩) System.init
      [Tick.poll 1 0]).w.waitCb = ⟨41, 1, 0⟩ ∧
    (runTicks ⟨80, 1000⟩ lockingTasks (fun _ => ⟨0, 0, 0⟩) System.init
      [Tick.poll 1 0]).w.waitCb = ⟨0, 1, 41⟩ ∧
    (invoke ⟨80, 1000⟩ lockingTasks 1 0 CALLER_THREAD
      (runTicks ⟨80, 1000⟩ lockingTasks (fun _ => ⟨0, 0, 0⟩) System.init
        [Tick.poll 1 0, Tick.irq 0])).2 = RETURN_DONE ∧
    (runTicks ⟨80, 1000⟩ lockingTasks (fun _ => ⟨0, 0, 0⟩) System.init
      [Tick.poll 1 0, Tick.irq 0, Tick.poll 1 0]).statics 1 = ⟨0, 0⟩ := by
  decide

/-- C15: a timed function re-entered at the label of a `TIMED_WAIT` or of a
`TIMED_RELEASE` (`_timed_pt = line`, guard of `TIMED_BEGIN` not firing) does not execute
the statements in front of the label again: the timer is not loaded, and `waitCb` and
`waitMutex` are passed on as they were, either returned with `RETURN_WAIT` or handed to
the statements that follow. Re-entered at the label of a `TIMED_LOCK` it tests
`waitMutex` again and takes the timer when it is free. -/
theorem resume_at_label_rewrites_nothing (P : Platform) (pre rest : List Stmt)
    (line pdata caller : Nat) (c : Ctx)
    (hpre : ∀ s ∈ pre, s.label ≠ some line)
    (hpt : c.self._timed_pt = line) (hline : line ≠ 0)
    (hguard : c.self._timed_mutex = 0 ∨ caller ≠ CALLER_THREAD) :
    (∀ func time data,
        TIMED_FUNCTION P (pre ++ Stmt.WAIT line func time data :: rest) pdata caller c =
          if c.w.waitMutex = TIMER_RUN then (c, RETURN_WAIT)
          else runFrom P pdata caller rest ⟨⟨line, 0⟩, c.w⟩) ∧
      TIMED_FUNCTION P (pre ++ Stmt.RELEASE line :: rest) pdata caller c =
        (if caller = CALLER_TIMER then (c, RETURN_WAIT)
          else runFrom P pdata caller rest c) ∧
      TIMED_FUNCTION P (pre ++ Stmt.LOCK line :: rest) pdata caller c =
        (if c.w.waitMutex ≠ TIMER_FREE then (c, RETURN_WAIT)
          else runFrom P pdata caller rest
            ⟨c.self, ⟨TIMER_LOCK, c.w.waitCb, c.w.trace⟩⟩) ∧
      (TIMED_WAIT_case c).1.w = c.w ∧ (TIMED_RELEASE_case caller c).1 = c := by
  have hpre1 : ∀ s ∈ pre, s.label ≠ some c.self._timed_pt := by rw [hpt]; exact hpre
  have hpt0 : c.self._timed_pt ≠ 0 := by rw [hpt]; exact hline
  refine ⟨?_, ?_, ?_, ?_, ?_⟩
  · intro func time data
    rw [TIMED_FUNCTION_resume P pre rest (Stmt.WAIT line func time data) pdata caller c
      hpre1 (by simp [Stmt.label, hpt]) hpt0 hguard]
    by_cases h : c.w.waitMutex = TIMER_RUN
    · simp [Stmt.runCase, TIMED_WAIT_case, h]
    · simp [Stmt.runCase, TIMED_WAIT_case, h, ← hpt]
  · rw [TIMED_FUNCTION_resume P pre rest (Stmt.RELEASE line) pdata caller c
      hpre1 (by simp [Stmt.label, hpt]) hpt0 hguard]
    by_cases h : caller = CALLER_TIMER <;> simp [Stmt.runCase, TIMED_RELEASE_case, h]
  · rw [TIMED_FUNCTION_resume P pre rest (Stmt.LOCK line) pdata caller c
      hpre1 (by simp [Stmt.label, hpt]) hpt0 hguard]
    by_cases h : c.w.waitMutex = TIMER_FREE <;> simp [Stmt.runCase, TIMED_LOCK_case, h]
  · by_cases h : c.w.waitMutex = TIMER_RUN <;> simp [TIMED_WAIT_case, h]
  · by_cases h : caller = CALLER_TIMER <;> simp [TIMED_RELEASE_case, h]

/-- C15, at a concrete input: the poll of a function suspended behind its release at
line 120 runs the code after the release; the globals are handed on untouched although
the timer has meanwhile been taken by another function. -/
theorem resume_at_label_rewrites_nothing_witness :
    TIMED_FUNCTION ⟨80, 1000⟩
        ([Stmt.LOCK 84, Stmt.WAIT 98 1 1000 ⟨Member.data, 41⟩] ++ Stmt.RELEASE 120 :: [Stmt.code 1]) 0
        CALLER_THREAD ⟨⟨120, 0⟩, ⟨TIMER_RUN, ⟨0, 2, 42⟩, []⟩⟩ =
      (if CALLER_THREAD = CALLER_TIMER then
          (⟨⟨120, 0⟩, ⟨TIMER_RUN, ⟨0, 2, 42⟩, []⟩⟩, RETURN_WAIT)
        else runFrom ⟨80, 1000⟩ 0 CALLER_THREAD [Stmt.code 1]
          ⟨⟨120, 0⟩, ⟨TIMER_RUN, ⟨0, 2, 42⟩, []⟩⟩) :=
  (resume_at_label_rewrites_nothing ⟨80, 1000⟩ [Stmt.LOCK 84, Stmt.WAIT 98 1 1000 ⟨Member.data, 41⟩]
    [Stmt.code 1] 120 0 CALLER_THREAD ⟨⟨120, 0⟩, ⟨TIMER_RUN, ⟨0, 2, 42⟩, []⟩⟩
    (by decide) rfl (by decide) (Or.inl rfl)).2.1

/-! ## Only a release frees the timer -/

/-- A statement other than `TIMED_RELEASE`, run from its top, does not free the timer. -/
theorem Stmt.run_keeps_locked (P : Platform) (pdata caller : Nat) (st : Stmt) (c : Ctx)
    (hrel : st.isRelease = false) (hm : c.w.waitMutex ≠ TIMER_FREE) :
    (st.run P pdata caller c).1.w.waitMutex ≠ TIMER_FREE := by
  cases st with
  | LOCK line => simp [Stmt.run, TIMED_LOCK, TIMED_LOCK_case, setPt, hm]
  | WAIT line func time data =>
    simp [Stmt.run, TIMED_WAIT, TIMED_WAIT_arm, TIMED_WAIT_case, timedLoadTimer, setPt,
      TIMER_RUN, TIMER_FREE]
  | YIELD line =>
    by_cases h : caller = CALLER_TIMER <;>
      simp [Stmt.run, TIMED_YIELD, TIMED_YIELD_case, setPt, h, hm]
  | RELEASE line => simp [Stmt.isRelease] at hrel
  | code tag => simp [Stmt.run, hm]

/-- No statement entered at its label frees the timer. -/
theorem Stmt.runCase_keeps_locked (caller : Nat) (st : Stmt) (c : Ctx)
    (hm : c.w.waitMutex ≠ TIMER_FREE) :
    (st.runCase caller c).1.w.waitMutex ≠ TIMER_FREE := by
  cases st with
  | LOCK line => simp [Stmt.runCase, TIMED_LOCK_case, hm]
  | WAIT line func time data =>
    by_cases h : c.w.waitMutex = TIMER_RUN
    · simp [Stmt.runCase, TIMED_WAIT_case, h, TIMER_RUN, TIMER_FREE]
    · simp [Stmt.runCase, TIMED_WAIT_case, h, hm]
  | YIELD line =>
    by_cases h : caller = CALLER_TIMER <;> simp [Stmt.runCase, TIMED_YIELD_case, h, hm]
  | RELEASE line =>
    by_cases h : caller = CALLER_TIMER <;> simp [Stmt.runCase, TIMED_RELEASE_case, h, hm]
  | code tag => simp [Stmt.runCase, hm]

/-- Straight-line execution that executes no release does not free the timer. -/
theorem runFrom_keeps_locked (P : Platform) (pdata caller : Nat) (r : List Stmt) (c : Ctx)
    (hm : c.w.waitMutex ≠ TIMER_FREE) (hrel : runFromReleases P pdata caller r c = false) :
    (runFrom P pdata caller r c).1.w.waitMutex ≠ TIMER_FREE := by
  induction r generalizing c with
  | nil => simpa [runFrom, TIMED_END] using hm
  | cons st r ih =>
    simp only [runFromReleases, Bool.or_eq_false_iff] at hrel
    have hst := Stmt.run_keeps_locked P pdata caller st c hrel.1 hm
    unfold runFrom
    rcases hrun : st.run P pdata caller c with ⟨c1, _ | ret⟩
    · rw [hrun] at hst
      have hr := hrel.2
      rw [hrun] at hr
      exact ih c1 hst hr
    · rw [hrun] at hst
      exact hst

/-- The jump of the `switch`, followed by statements that execute no release, does not
free the timer. -/
theorem switchTo_keeps_locked (P : Platform) (pdata caller pt : Nat) (r : List Stmt)
    (c : Ctx) (hm : c.w.waitMutex ≠ TIMER_FREE)
    (hrel : switchToReleases P pdata caller pt r c = false) :
    (switchTo P pdata caller pt r c).1.w.waitMutex ≠ TIMER_FREE := by
  induction r with
  | nil => simpa [switchTo, TIMED_END] using hm
  | cons st r ih =>
    unfold switchTo
    unfold switchToReleases at hrel
    by_cases hl : st.label = some pt
    · rw [if_pos hl] at hrel ⊢
      have hst := Stmt.runCase_keeps_locked caller st c hm
      rcases hrun : st.runCase caller c with ⟨c1, _ | ret⟩
      · rw [hrun] at hst hrel
        exact runFrom_keeps_locked P pdata caller r c1 hst hrel
      · rw [hrun] at hst
        exact hst
    · rw [if_neg hl] at hrel ⊢
      exact ih hrel

/-- A call that executes no release does not free the timer. -/
theorem TIMED_FUNCTION_keeps_locked (P : Platform) (body : List Stmt) (pdata caller : Nat)
    (c : Ctx) (hm : c.w.waitMutex ≠ TIMER_FREE)
    (hrel : callReleases P body pdata caller c = false) :
    (TIMED_FUNCTION P body pdata caller c).1.w.waitMutex ≠ TIMER_FREE := by
  unfold TIMED_FUNCTION
  unfold callReleases at hrel
  split
  · exact hm
  · rename_i hg
    rw [if_neg hg] at hrel
    split
    · rename_i h0
      rw [if_pos h0] at hrel
      exact runFrom_keeps_locked P pdata caller body c hm hrel
    · rename_i h0
      rw [if_neg h0] at hrel
      exact switchTo_keeps_locked P pdata caller _ body c hm hrel

/-- The interrupt handler, whatever the state it is taken in, sets `TIMER_LOCK` first:
without a pending handler that is all besides the acknowledgement, with one it then
calls the handler. -/
theorem timedFunctionsIntHandler_eq (P : Platform) (prog : Nat → List Stmt)
    (adj : Nat → timedCallback) (i : Nat) (sys : System) :
    timedFunctionsIntHandler P prog adj i sys =
      if sys.w.waitCb.callback = 0 then
        ⟨⟨TIMER_LOCK, sys.w.waitCb, sys.w.trace ++ [Event.TimerIntClear]⟩, sys.statics⟩
      else
        (invoke P prog sys.w.waitCb.callback (waitCbAt sys.w adj i).data CALLER_TIMER
          ⟨⟨TIMER_LOCK, sys.w.waitCb, sys.w.trace ++ [Event.TimerIntClear] ++
            [Event.callback sys.w.waitCb.callback (waitCbAt sys.w adj i).data
              CALLER_TIMER]⟩, sys.statics⟩).1 := by
  by_cases h : sys.w.waitCb.callback = 0
  · simp [timedFunctionsIntHandler, h]
  · simp [timedFunctionsIntHandler, h, waitCbAt]

/-- A tick that executes no release does not free the timer. -/
theorem step_keeps_locked (P : Platform) (prog : Nat → List Stmt)
    (adj : Nat → timedCallback) (sys : System) (t : Tick)
    (hm : sys.w.waitMutex ≠ TIMER_FREE) (hrel : tickReleases P prog adj sys t = false) :
    (step P prog adj sys t).w.waitMutex ≠ TIMER_FREE := by
  cases t with
  | poll fn pdata =>
    exact TIMED_FUNCTION_keeps_locked P (prog fn) pdata CALLER_THREAD
      ⟨sys.statics fn, sys.w⟩ hm hrel
  | irq i =>
    show (timedFunctionsIntHandler P prog adj i sys).w.waitMutex ≠ TIMER_FREE
    rw [timedFunctionsIntHandler_eq]
    unfold tickReleases at hrel
    by_cases h : sys.w.waitCb.callback = 0
    · rw [if_pos h]
      simp [TIMER_LOCK, TIMER_FREE]
    · rw [if_neg h]
      simp only [ne_eq, h, not_false_eq_true, if_true] at hrel
      exact TIMED_FUNCTION_keeps_locked P _ _ CALLER_TIMER _
        (by simp [TIMER_LOCK, TIMER_FREE]) hrel

/-- A sequence of ticks that executes no release does not free the timer. -/
theorem runTicks_keeps_locked (P : Platform) (prog : Nat → List Stmt)
    (adj : Nat → timedCallback) (ticks : List Tick) (sys : System)
    (hm : sys.w.waitMutex ≠ TIMER_FREE) (hrel : ticksRelease P prog adj sys ticks = false) :
    (runTicks P prog adj sys ticks).w.waitMutex ≠ TIMER_FREE := by
  induction ticks generalizing sys with
  | nil => exact hm
  | cons t ts ih =>
    simp only [ticksRelease, Bool.or_eq_false_iff] at hrel
    exact ih (step P prog adj sys t) (step_keeps_locked P prog adj sys t hm hrel.1) hrel.2

/-- C16: `TIMED_END` writes only `_timed_pt` and `_timed_mutex`; `waitMutex`, `waitCb`
and the trace are left as they were. So when a function reaches `TIMED_END` in a context
`c` whose `waitMutex` is not `TIMER_FREE`, then after every later sequence of polls (of
any function, the finished one included) and interrupts in which no `TIMED_RELEASE` is
executed, `waitMutex` is still not free and `TIMED_LOCK` in any function returns
`RETURN_WAIT` without changing the globals. -/
theorem TIMED_END_does_not_release (P : Platform) (prog : Nat → List Stmt)
    (adj : Nat → timedCallback) (c : Ctx) :
    TIMED_END c = (⟨⟨0, 0⟩, c.w⟩, RETURN_DONE) ∧
      ∀ (sys : System) (ticks : List Tick), sys.w = (TIMED_END c).1.w →
        c.w.waitMutex ≠ TIMER_FREE → ticksRelease P prog adj sys ticks = false →
        (runTicks P prog adj sys ticks).w.waitMutex ≠ TIMER_FREE ∧
        ∀ (self : Statics) (line : Nat),
          TIMED_LOCK line ⟨self, (runTicks P prog adj sys ticks).w⟩ =
            (setPt line ⟨self, (runTicks P prog adj sys ticks).w⟩, some RETURN_WAIT) := by
  refine ⟨rfl, ?_⟩
  intro sys ticks hw hm hrel
  have hm0 : sys.w.waitMutex ≠ TIMER_FREE := by
    rw [hw]
    exact hm
  have hN := runTicks_keeps_locked P prog adj ticks sys hm0 hrel
  refine ⟨hN, ?_⟩
  intro self line
  simp [TIMED_LOCK, TIMED_LOCK_case, setPt, hN]

/-- C16, at a concrete input: function 1 of `lockOnlyTasks` has reached `TIMED_END` with
the timer locked; it is polled again from its top, function 2 is polled and an interrupt
is taken; the timer is still not free. -/
theorem TIMED_END_does_not_release_witness :
    (runTicks ⟨80, 1000⟩ lockOnlyTasks (fun _ => ⟨0, 0, 0⟩)
      ⟨⟨TIMER_LOCK, ⟨0, 0, 0⟩, [Event.userCode 1 0]⟩, fun _ => Statics.init⟩
      [Tick.poll 1 0, Tick.poll 2 0, Tick.irq 0]).w.waitMutex ≠ TIMER_FREE :=
  ((TIMED_END_does_not_release ⟨80, 1000⟩ lockOnlyTasks (fun _ => ⟨0, 0, 0⟩)
    ⟨⟨84, 0⟩, ⟨TIMER_LOCK, ⟨0, 0, 0⟩, [Event.userCode 1 0]⟩⟩).2
    ⟨⟨TIMER_LOCK, ⟨0, 0, 0⟩, [Event.userCode 1 0]⟩, fun _ => Statics.init⟩
    [Tick.poll 1 0, Tick.poll 2 0, Tick.irq 0] rfl (by decide) (by decide)).1

/-- C17: the interrupt handler sets `waitMutex = TIMER_LOCK` before it looks at
`waitCb.callback`, in whatever state it is taken. Taken while no handler is pending, it
leaves `waitMutex = TIMER_LOCK`, still no pending handler, and no function that holds
the timer unless one held it before (none does in a reachable state with the timer
free); after that `TIMED_LOCK` in any function returns `RETURN_WAIT` for as long as no
`TIMED_RELEASE` is executed. -/
theorem interrupt_locks_timer_without_owner (P : Platform) (prog : Nat → List Stmt)
    (adj : Nat → timedCallback) (i : Nat) (sys : System) :
    timedFunctionsIntHandler P prog adj i sys =
        (if sys.w.waitCb.callback = 0 then
          ⟨⟨TIMER_LOCK, sys.w.waitCb, sys.w.trace ++ [Event.TimerIntClear]⟩, sys.statics⟩
        else
          (invoke P prog sys.w.waitCb.callback (waitCbAt sys.w adj i).data CALLER_TIMER
            ⟨⟨TIMER_LOCK, sys.w.waitCb, sys.w.trace ++ [Event.TimerIntClear] ++
              [Event.callback sys.w.waitCb.callback (waitCbAt sys.w adj i).data
                CALLER_TIMER]⟩, sys.statics⟩).1) ∧
      (sys.w.waitCb.callback = 0 →
        (timedFunctionsIntHandler P prog adj i sys).w.waitMutex = TIMER_LOCK ∧
        (timedFunctionsIntHandler P prog adj i sys).w.waitCb.callback = 0 ∧
        (∀ f, holds prog (timedFunctionsIntHandler P prog adj i sys) f = holds prog sys f) ∧
        ((∀ f, wellFormed (prog f) = true) →
          ∀ ticks0, sys = runTicks P prog adj System.init ticks0 →
            sys.w.waitMutex = TIMER_FREE →
            ∀ f, holds prog (timedFunctionsIntHandler P prog adj i sys) f = false) ∧
        ∀ ticks, ticksRelease P prog adj (timedFunctionsIntHandler P prog adj i sys)
            ticks = false →
          (runTicks P prog adj (timedFunctionsIntHandler P prog adj i sys)
            ticks).w.waitMutex ≠ TIMER_FREE ∧
          ∀ (self : Statics) (line : Nat),
            TIMED_LOCK line ⟨self, (runTicks P prog adj
                (timedFunctionsIntHandler P prog adj i sys) ticks).w⟩ =
              (setPt line ⟨self, (runTicks P prog adj
                (timedFunctionsIntHandler P prog adj i sys) ticks).w⟩,
                some RETURN_WAIT)) := by
  refine ⟨timedFunctionsIntHandler_eq P prog adj i sys, ?_⟩
  intro hnull
  have heq : timedFunctionsIntHandler P prog adj i sys =
      ⟨⟨TIMER_LOCK, sys.w.waitCb, sys.w.trace ++ [Event.TimerIntClear]⟩, sys.statics⟩ := by
    rw [timedFunctionsIntHandler_eq, if_pos hnull]
  have hholds : ∀ f, holds prog (timedFunctionsIntHandler P prog adj i sys) f =
      holds prog sys f := by
    intro f
    rw [heq]
    rfl
  refine ⟨by rw [heq], by rw [heq]; exact hnull, hholds, ?_, ?_⟩
  · intro hwf ticks0 hsys hfree f
    rw [hholds f]
    have hinv := runTicks_SlotInv P prog hwf adj ticks0 System.init (init_SlotInv prog hwf)
    rw [← hsys] at hinv
    cases hh : holds prog sys f with
    | false => rfl
    | true => exact absurd hfree (hinv.2 f hh)
  · intro ticks hrel
    have hN := runTicks_keeps_locked P prog adj ticks _
      (by rw [heq]; simp [TIMER_LOCK, TIMER_FREE]) hrel
    refine ⟨hN, ?_⟩
    intro self line
    simp [TIMED_LOCK, TIMED_LOCK_case, setPt, hN]

/-- C17, at a concrete input: an interrupt in the initial state of `lockingTasks`, then
both functions are polled; neither gets the timer. -/
theorem interrupt_locks_timer_without_owner_witness :
    (runTicks ⟨80, 1000⟩ lockingTasks (fun _ => ⟨0, 0, 0⟩)
      (timedFunctionsIntHandler ⟨80, 1000⟩ lockingTasks (fun _ => ⟨0, 0, 0⟩) 0 System.init)
      [Tick.poll 1 0, Tick.poll 2 0]).w.waitMutex ≠ TIMER_FREE :=
  (((interrupt_locks_timer_without_owner ⟨80, 1000⟩ lockingTasks (fun _ => ⟨0, 0, 0⟩) 0
    System.init).2 rfl).2.2.2.2 [Tick.poll 1 0, Tick.poll 2 0] (by decide)).1

/-! ## The resume point is always a label of the body -/

/-- A statement that returns has stored its own line in `_timed_pt`. -/
theorem Stmt.run_returns_at_label (P : Platform) (pdata caller : Nat) (st : Stmt)
    (c c1 : Ctx) (ret : Nat) (hl : ∀ l, st.label = some l → l < 65536)
    (h : st.run P pdata caller c = (c1, some ret)) : st.label = some c1.self._timed_pt := by
  cases st with
  | LOCK line =>
    have hlt := hl line rfl
    simp only [Stmt.run, TIMED_LOCK, TIMED_LOCK_case, setPt] at h
    split at h
    · simp only [Prod.mk.injEq] at h
      rw [← h.1]
      simp [Stmt.label, Nat.mod_eq_of_lt hlt]
    · simp at h
  | WAIT line func time data =>
    have hlt := hl line rfl
    rw [Stmt.run, TIMED_WAIT_eq P line func time data c hlt] at h
    simp only [Prod.mk.injEq] at h
    rw [← h.1]
    simp [Stmt.label]
  | YIELD line =>
    have hlt := hl line rfl
    simp only [Stmt.run, TIMED_YIELD, TIMED_YIELD_case, setPt] at h
    split at h
    · simp only [Prod.mk.injEq] at h
      rw [← h.1]
      simp [Stmt.label, Nat.mod_eq_of_lt hlt]
    · simp at h
  | RELEASE line =>
    have hlt := hl line rfl
    simp only [Stmt.run, TIMED_RELEASE, TIMED_RELEASE_case, TIMED_RELEASE_free, setPt] at h
    split at h
    · simp only [Prod.mk.injEq] at h
      rw [← h.1]
      simp [Stmt.label, Nat.mod_eq_of_lt hlt]
    · simp at h
  | code tag => simp [Stmt.run] at h

/-- A statement entered at its label leaves `_timed_pt` as it was. -/
theorem Stmt.runCase_pt (caller : Nat) (st : Stmt) (c : Ctx) :
    (st.runCase caller c).1.self._timed_pt = c.self._timed_pt := by
  cases st with
  | LOCK line =>
    by_cases h : c.w.waitMutex = TIMER_FREE <;> simp [Stmt.runCase, TIMED_LOCK_case, h]
  | WAIT line func time data =>
    by_cases h : c.w.waitMutex = TIMER_RUN <;> simp [Stmt.runCase, TIMED_WAIT_case, h]
  | YIELD line =>
    by_cases h : caller = CALLER_TIMER <;> simp [Stmt.runCase, TIMED_YIELD_case, h]
  | RELEASE line =>
    by_cases h : caller = CALLER_TIMER <;> simp [Stmt.runCase, TIMED_RELEASE_case, h]
  | code tag => simp [Stmt.runCase]

/-- The label of the first statement is a label of the body. -/
theorem label_mem_labels (st : Stmt) (r : List Stmt) (l : Nat) (h : st.label = some l) :
    l ∈ labels (st :: r) := by
  rw [labels_cons, h]
  exact List.mem_cons_self l _

/-- The labels of the later statements are labels of the body. -/
theorem mem_labels_cons (st : Stmt) (r : List Stmt) (l : Nat) (h : l ∈ labels r) :
    l ∈ labels (st :: r) := by
  rw [labels_cons]
  cases hl : st.label with
  | none => exact h
  | some l0 => exact List.mem_cons_of_mem l0 h

/-- Straight-line execution ends with `_timed_pt` at 0 or at a label of the statements. -/
theorem runFrom_pt (P : Platform) (pdata caller : Nat) (r : List Stmt) (c : Ctx)
    (hrange : ∀ l ∈ labels r, l < 65536) :
    (runFrom P pdata caller r c).1.self._timed_pt = 0 ∨
      (runFrom P pdata caller r c).1.self._timed_pt ∈ labels r := by
  induction r generalizing c with
  | nil => exact Or.inl rfl
  | cons st r ih =>
    have hr : ∀ l ∈ labels r, l < 65536 := fun l hl => hrange l (mem_labels_cons st r l hl)
    have hst : ∀ l, st.label = some l → l < 65536 :=
      fun l hl => hrange l (label_mem_labels st r l hl)
    unfold runFrom
    rcases hrun : st.run P pdata caller c with ⟨c1, _ | ret⟩
    · rcases ih c1 hr with h | h
      · exact Or.inl h
      · exact Or.inr (mem_labels_cons st r _ h)
    · exact Or.inr (label_mem_labels st r _
        (Stmt.run_returns_at_label P pdata caller st c c1 ret hst hrun))

/-- The jump of the `switch` to the saved `_timed_pt` ends with `_timed_pt` at 0 or at a
label of the statements. -/
theorem switchTo_pt (P : Platform) (pdata caller : Nat) (r : List Stmt) (c : Ctx)
    (hrange : ∀ l ∈ labels r, l < 65536) :
    (switchTo P pdata caller c.self._timed_pt r c).1.self._timed_pt = 0 ∨
      (switchTo P pdata caller c.self._timed_pt r c).1.self._timed_pt ∈ labels r := by
  induction r with
  | nil => exact Or.inl rfl
  | cons st r ih =>
    have hr : ∀ l ∈ labels r, l < 65536 := fun l hl => hrange l (mem_labels_cons st r l hl)
    unfold switchTo
    by_cases hl : st.label = some c.self._timed_pt
    · rw [if_pos hl]
      have hpt := Stmt.runCase_pt caller st c
      rcases hrun : st.runCase caller c with ⟨c1, _ | ret⟩
      · rcases runFrom_pt P pdata caller r c1 hr with h | h
        · exact Or.inl h
        · exact Or.inr (mem_labels_cons st r _ h)
      · rw [hrun] at hpt
        right
        show c1.self._timed_pt ∈ labels (st :: r)
        rw [hpt]
        exact label_mem_labels st r _ hl
    · rw [if_neg hl]
      rcases ih hr with h | h
      · exact Or.inl h
      · exact Or.inr (mem_labels_cons st r _ h)

/-- A call of a timed function keeps `_timed_pt` at 0 or at a label of the body. -/
theorem TIMED_FUNCTION_pt (P : Platform) (body : List Stmt) (pdata caller : Nat) (c : Ctx)
    (hrange : ∀ l ∈ labels body, l < 65536)
    (hc : c.self._timed_pt = 0 ∨ c.self._timed_pt ∈ labels body) :
    (TIMED_FUNCTION P body pdata caller c).1.self._timed_pt = 0 ∨
      (TIMED_FUNCTION P body pdata caller c).1.self._timed_pt ∈ labels body := by
  unfold TIMED_FUNCTION
  split
  · exact hc
  · split
    · exact runFrom_pt P pdata caller body c hrange
    · exact switchTo_pt P pdata caller body c hrange

/-- A call keeps every function at the top of its body or at one of its labels. -/
theorem invoke_PtInv (P : Platform) (prog : Nat → List Stmt)
    (hrange : ∀ f, ∀ l ∈ labels (prog f), l < 65536) (fn pdata caller : Nat) (sys : System)
    (hinv : PtInv prog sys) : PtInv prog (invoke P prog fn pdata caller sys).1 := by
  intro f
  by_cases h : f = fn
  · subst h
    simp only [invoke, Function.update_same]
    exact TIMED_FUNCTION_pt P (prog f) pdata caller ⟨sys.statics f, sys.w⟩ (hrange f) (hinv f)
  · simp only [invoke, Function.update_noteq h]
    exact hinv f

/-- The interrupt handler keeps every function at the top of its body or at one of its
labels. -/
theorem timedFunctionsIntHandler_PtInv (P : Platform) (prog : Nat → List Stmt)
    (hrange : ∀ f, ∀ l ∈ labels (prog f), l < 65536) (adj : Nat → timedCallback) (i : Nat)
    (sys : System) (hinv : PtInv prog sys) :
    PtInv prog (timedFunctionsIntHandler P prog adj i sys) := by
  rw [timedFunctionsIntHandler_eq]
  split
  · exact hinv
  · exact invoke_PtInv P prog hrange _ _ _ _ hinv

/-- Every sequence of ticks keeps every function at the top of its body or at one of
its labels. -/
theorem runTicks_PtInv (P : Platform) (prog : Nat → List Stmt)
    (hrange : ∀ f, ∀ l ∈ labels (prog f), l < 65536) (adj : Nat → timedCallback)
    (ticks : List Tick) (sys : System) (hinv : PtInv prog sys) :
    PtInv prog (runTicks P prog adj sys ticks) := by
  induction ticks generalizing sys with
  | nil => exact hinv
  | cons t ticks ih =>
    have hstep : PtInv prog (step P prog adj sys t) := by
      cases t with
      | poll fn pdata => exact invoke_PtInv P prog hrange fn pdata CALLER_THREAD sys hinv
      | irq i => exact timedFunctionsIntHandler_PtInv P prog hrange adj i sys hinv
    exact ih _ hstep

/-- A label of the body belongs to a first statement that carries it. -/
theorem exists_label_split (pt : Nat) (body : List Stmt) (h : pt ∈ labels body) :
    ∃ pre st rest, body = pre ++ st :: rest ∧ st.label = some pt ∧
      ∀ s ∈ pre, s.label ≠ some pt := by
  induction body with
  | nil => simp [labels] at h
  | cons st r ih =>
    by_cases hl : st.label = some pt
    · exact ⟨[], st, r, rfl, hl, fun s hs => by simp at hs⟩
    · have hr : pt ∈ labels r := by
        rw [labels_cons] at h
        cases hl0 : st.label with
        | none =>
          simp only [hl0] at h
          exact h
        | some l0 =>
          simp only [hl0, List.mem_cons] at h
          rcases h with h | h
          · rw [hl0, h] at hl
            exact absurd rfl hl
          · exact h
      obtain ⟨pre, st1, rest, hbody, hst1, hpre⟩ := ih hr
      refine ⟨st :: pre, st1, rest, by rw [hbody]; rfl, hst1, ?_⟩
      intro s hs
      rcases List.mem_cons.mp hs with hs | hs
      · rw [hs]
        exact hl
      · exact hpre s hs

/-- C18: when the labels of every body fit `unsigned short`, then in every state
reached from the initial one by polls and timer interrupts, `_timed_pt` of every
function is 0 or a label of its body; and when it is not 0, the body has a first
statement with that label, at which every call whose `TIMED_BEGIN` guard does not fire
continues: the `switch` never falls through to `TIMED_END` for lack of a matching
`case`. -/
theorem resume_point_is_zero_or_label (P : Platform) (prog : Nat → List Stmt)
    (adj : Nat → timedCallback) (hrange : ∀ f, ∀ l ∈ labels (prog f), l < 65536)
    (ticks : List Tick) (f : Nat) :
    (((runTicks P prog adj System.init ticks).statics f)._timed_pt = 0 ∨
      ((runTicks P prog adj System.init ticks).statics f)._timed_pt ∈ labels (prog f)) ∧
    (((runTicks P prog adj System.init ticks).statics f)._timed_pt ≠ 0 →
      ∃ pre st rest, prog f = pre ++ st :: rest ∧
        st.label = some ((runTicks P prog adj System.init ticks).statics f)._timed_pt ∧
        (∀ s ∈ pre,
          s.label ≠ some ((runTicks P prog adj System.init ticks).statics f)._timed_pt) ∧
        ∀ (pdata caller : Nat) (w : World),
          ((runTicks P prog adj System.init ticks).statics f)._timed_mutex = 0 ∨
              caller ≠ CALLER_THREAD →
          TIMED_FUNCTION P (prog f) pdata caller
              ⟨(runTicks P prog adj System.init ticks).statics f, w⟩ =
            match st.runCase caller ⟨(runTicks P prog adj System.init ticks).statics f, w⟩ with
            | (c1, some r) => (c1, r)
            | (c1, none) => runFrom P pdata caller rest c1) := by
  have hinit : PtInv prog System.init := fun _ => Or.inl rfl
  have hinv := runTicks_PtInv P prog hrange adj ticks System.init hinit f
  generalize (runTicks P prog adj System.init ticks).statics f = s at hinv ⊢
  refine ⟨hinv, ?_⟩
  intro h0
  rcases hinv with h | h
  · exact absurd h h0
  · obtain ⟨pre, st, rest, hbody, hst, hpre⟩ := exists_label_split _ _ h
    refine ⟨pre, st, rest, hbody, hst, hpre, ?_⟩
    intro pdata caller w hguard
    rw [hbody]
    exact TIMED_FUNCTION_resume P pre rest st pdata caller ⟨s, w⟩ hpre hst h0 hguard

/-- The labels of `lockingTasks` fit `unsigned short`. -/
theorem lockingTasks_labels : ∀ f, ∀ l ∈ labels (lockingTasks f), l < 65536 := by
  intro f l hl
  by_cases h : f = 1
  · subst h
    have : l ∈ [84, 98, 120] := hl
    simp at this
    omega
  · simp only [lockingTasks, if_neg h] at hl
    have : l ∈ [84, 98, 120] := hl
    simp at this
    omega

/-- C18, at a concrete input: after a poll, an interrupt with a wrong index and a poll of
the other function, function 1 of `lockingTasks` is at 0 or at one of its labels. -/
theorem resume_point_is_zero_or_label_witness :
    ((runTicks ⟨80, 1000⟩ lockingTasks (fun _ => ⟨0, 0, 99⟩) System.init
        [Tick.poll 1 0, Tick.irq 1, Tick.poll 2 0]).statics 1)._timed_pt = 0 ∨
      ((runTicks ⟨80, 1000⟩ lockingTasks (fun _ => ⟨0, 0, 99⟩) System.init
        [Tick.poll 1 0, Tick.irq 1, Tick.poll 2 0]).statics 1)._timed_pt ∈
          labels (lockingTasks 1) :=
  (resume_point_is_zero_or_label ⟨80, 1000⟩ lockingTasks (fun _ => ⟨0, 0, 99⟩)
    lockingTasks_labels [Tick.poll 1 0, Tick.irq 1, Tick.poll 2 0] 1).1

end TimedFunctions
